import Mathlib

/-!
ShelfSense recommendation pipeline: an executable Lean model and verification.

This file is a shallow embedding of the recommendation pipeline of the
ShelfSense repository:

- `backend/services/geminiService.js` (prompt building, model-response
  parsing, two-tier model fallback) and the recommendation orchestrator
  `getRecommendationsForUser` that lives in the same service layer;
- `googleBooksService.js` (catalog search adapter `searchBooks`,
  `getBookDetails`, and the enrichment stage `enrichRecommendations`).

External collaborators (the database, the two generative models, the
Google Books HTTP endpoint) are modelled as explicit inputs: each embedded
operation takes the observable outcome of every outbound call it makes.
JavaScript exceptions are modelled with `Except`/`Option`; a function that
the source wraps in a catch-all is total in the model.  JavaScript numbers
are modelled as `Rat` (exact rationals); binary floating-point artifacts
are outside the model, and all concrete inputs used below are small
integers on which JavaScript arithmetic is exact.
-/

/-- A thrown JavaScript error, reduced to the `message` field, which is the
only part the source ever inspects. -/
structure JsErr where
  message : String
deriving DecidableEq

/-- JavaScript `x || d` for an optional string `x` (`undefined` and the
empty string are falsy). -/
def jsOrS (x : Option String) (d : String) : String :=
  match x with
  | some s => if s = "" then d else s
  | none => d

/-- JavaScript `Math.round` and the rounding used by `toFixed` (round half
toward positive infinity), on exact rationals. -/
def jsRound (q : ℚ) : ℤ := ⌊q + 1 / 2⌋

/-- Round to one decimal place, as `parseFloat(q.toFixed(1))` does. -/
def fixed1 (q : ℚ) : ℚ := (jsRound (10 * q) : ℚ) / 10

/-- Render a rational with one decimal digit, as `q.toFixed(1)` does
(nonnegative values; the data this is applied to is nonnegative). -/
def toFixed1 (q : ℚ) : String :=
  let n : ℤ := jsRound (10 * q)
  if n < 0 then "-" ++ toString ((-n) / 10) ++ "." ++ toString ((-n) % 10)
  else toString (n / 10) ++ "." ++ toString (n % 10)

/-- Characters treated as whitespace by `String.prototype.trim` and by
`JSON.parse` (ASCII subset; the model does not cover exotic Unicode
whitespace, which never occurs in the concrete inputs below). -/
def jsWsChar (c : Char) : Bool :=
  c = ' ' ∨ c = '\t' ∨ c = '\n' ∨ c = '\r' ∨ c = '\x0b' ∨ c = '\x0c'

/-- JavaScript `String.prototype.trim` on a character list. -/
def jsTrim (cs : List Char) : List Char :=
  ((cs.dropWhile jsWsChar).reverse.dropWhile jsWsChar).reverse

/-!
A value model for `JSON.parse` results.  JavaScript numbers are modelled
as rationals.  Objects keep their members in textual order; duplicate keys
are resolved to the last occurrence on access, as in JavaScript.
-/

/-- A parsed JSON value. -/
inductive Json where
  | null
  | bool (b : Bool)
  | num (q : ℚ)
  | str (s : String)
  | arr (elems : List Json)
  | obj (fields : List (String × Json))

/-- JavaScript truthiness of a JSON value (`NaN` cannot arise from
`JSON.parse` and is not modelled). -/
def jsTruthy : Json → Bool
  | .null => false
  | .bool b => b
  | .num q => q ≠ 0
  | .str s => s ≠ ""
  | .arr _ => true
  | .obj _ => true

/-- Property access `j.k` on a parsed JSON value: a member lookup on an
object (last duplicate wins, as in JavaScript), `undefined` (`none`)
otherwise.  Access on `null` throws in JavaScript and is handled at the
call sites that can reach it. -/
def Json.getProp (j : Json) (k : String) : Option Json :=
  match j with
  | .obj fields => (fields.reverse.find? (fun p => p.1 = k)).map (·.2)
  | _ => none

/-!
An executable `JSON.parse`, written as a fuel-indexed recursive-descent
parser over a character list.  It accepts the JSON grammar (the number
grammar is slightly lenient about leading zeros, which `JSON.parse`
rejects; no concrete input below exercises that corner).  A parse is a
success only if the whole input is consumed up to trailing whitespace,
exactly like `JSON.parse`.
-/

/-- Skip leading JSON whitespace. -/
def skipWs : List Char → List Char
  | [] => []
  | c :: cs => if jsWsChar c then skipWs cs else c :: cs

/-- Split off a maximal run of leading decimal digits. -/
def takeDigits : List Char → List Char × List Char
  | [] => ([], [])
  | c :: cs =>
    if c.isDigit then
      let (ds, rest) := takeDigits cs
      (c :: ds, rest)
    else ([], c :: cs)

/-- Numeric value of a digit run. -/
def digitsToNat (ds : List Char) : Nat :=
  ds.foldl (fun n c => 10 * n + (c.toNat - 48)) 0

/-- Value of a hexadecimal digit, if any. -/
def hexVal (c : Char) : Option Nat :=
  if c.isDigit then some (c.toNat - 48)
  else if 'a' ≤ c ∧ c ≤ 'f' then some (c.toNat - 87)
  else if 'A' ≤ c ∧ c ≤ 'F' then some (c.toNat - 55)
  else none

/-- Parse the body of a JSON string (the opening quote is already
consumed), returning the decoded string and the remaining input. -/
def parseStringBody : Nat → List Char → List Char → Option (String × List Char)
  | 0, _, _ => none
  | _ + 1, _, [] => none
  | fuel + 1, acc, c :: cs =>
    if c = '"' then some (String.mk acc.reverse, cs)
    else if c = '\\' then
      match cs with
      | [] => none
      | e :: cs2 =>
        if e = '"' then parseStringBody fuel ('"' :: acc) cs2
        else if e = '\\' then parseStringBody fuel ('\\' :: acc) cs2
        else if e = '/' then parseStringBody fuel ('/' :: acc) cs2
        else if e = 'b' then parseStringBody fuel ('\x08' :: acc) cs2
        else if e = 'f' then parseStringBody fuel ('\x0c' :: acc) cs2
        else if e = 'n' then parseStringBody fuel ('\n' :: acc) cs2
        else if e = 'r' then parseStringBody fuel ('\r' :: acc) cs2
        else if e = 't' then parseStringBody fuel ('\t' :: acc) cs2
        else if e = 'u' then
          match cs2 with
          | h1 :: h2 :: h3 :: h4 :: cs3 =>
            match hexVal h1, hexVal h2, hexVal h3, hexVal h4 with
            | some v1, some v2, some v3, some v4 =>
              let n := ((v1 * 16 + v2) * 16 + v3) * 16 + v4
              parseStringBody fuel (Char.ofNat n :: acc) cs3
            | _, _, _, _ => none
          | _ => none
        else none
    else parseStringBody fuel (c :: acc) cs

/-- Parse a JSON number from leading sign and digits. -/
def parseNumber (cs : List Char) : Option (ℚ × List Char) :=
  let (neg, cs1) := match cs with
    | '-' :: rest => (true, rest)
    | rest => (false, rest)
  let (intDs, cs2) := takeDigits cs1
  if intDs = [] then none
  else
    let (fracDs, cs3) := match cs2 with
      | '.' :: rest =>
        let (ds, r) := takeDigits rest
        (ds, r)
      | rest => (([] : List Char), rest)
    if cs2 ≠ cs3 ∧ fracDs = [] then none
    else
      let base : ℚ := (digitsToNat intDs : ℚ) +
        (digitsToNat fracDs : ℚ) / ((10 : ℚ) ^ fracDs.length)
      let withSign := if neg then -base else base
      match cs3 with
      | 'e' :: rest => parseExponent withSign rest
      | 'E' :: rest => parseExponent withSign rest
      | rest => some (withSign, rest)
where
  /-- Parse the exponent part after `e`/`E`. -/
  parseExponent (mantissa : ℚ) (cs : List Char) : Option (ℚ × List Char) :=
    let (eneg, cs1) := match cs with
      | '-' :: rest => (true, rest)
      | '+' :: rest => (false, rest)
      | rest => (false, rest)
    let (expDs, cs2) := takeDigits cs1
    if expDs = [] then none
    else
      let e := digitsToNat expDs
      let v := if eneg then mantissa / (10 : ℚ) ^ e else mantissa * (10 : ℚ) ^ e
      some (v, cs2)

mutual

/-- Parse one JSON value (leading whitespace allowed). -/
def parseVal : Nat → List Char → Option (Json × List Char)
  | 0, _ => none
  | fuel + 1, cs =>
    match skipWs cs with
    | [] => none
    | c :: rest =>
      if c = '"' then
        (parseStringBody (rest.length + 1) [] rest).map (fun p => (Json.str p.1, p.2))
      else if c = '[' then
        parseArrayItems fuel rest
      else if c = '{' then
        parseObjMembers fuel rest
      else if c = 't' then
        match rest with
        | 'r' :: 'u' :: 'e' :: r => some (Json.bool true, r)
        | _ => none
      else if c = 'f' then
        match rest with
        | 'a' :: 'l' :: 's' :: 'e' :: r => some (Json.bool false, r)
        | _ => none
      else if c = 'n' then
        match rest with
        | 'u' :: 'l' :: 'l' :: r => some (Json.null, r)
        | _ => none
      else
        (parseNumber (c :: rest)).map (fun p => (Json.num p.1, p.2))

/-- Parse the items of an array (the opening bracket is consumed),
including the closing bracket. -/
def parseArrayItems : Nat → List Char → Option (Json × List Char)
  | 0, _ => none
  | fuel + 1, cs =>
    match skipWs cs with
    | ']' :: rest => some (Json.arr [], rest)
    | cs1 =>
      match parseVal fuel cs1 with
      | none => none
      | some (v, rest) => parseArrayTail fuel [v] rest

/-- Parse `, value`* `]` after at least one array item. -/
def parseArrayTail : Nat → List Json → List Char → Option (Json × List Char)
  | 0, _, _ => none
  | fuel + 1, acc, cs =>
    match skipWs cs with
    | ']' :: rest => some (Json.arr acc.reverse, rest)
    | ',' :: rest =>
      match parseVal fuel rest with
      | none => none
      | some (v, rest2) => parseArrayTail fuel (v :: acc) rest2
    | _ => none

/-- Parse the members of an object (the opening brace is consumed),
including the closing brace. -/
def parseObjMembers : Nat → List Char → Option (Json × List Char)
  | 0, _ => none
  | fuel + 1, cs =>
    match skipWs cs with
    | '}' :: rest => some (Json.obj [], rest)
    | '"' :: rest =>
      match parseStringBody (rest.length + 1) [] rest with
      | none => none
      | some (k, rest2) =>
        match skipWs rest2 with
        | ':' :: rest3 =>
          match parseVal fuel rest3 with
          | none => none
          | some (v, rest4) => parseObjTail fuel [(k, v)] rest4
        | _ => none
    | _ => none

/-- Parse `, "key" : value`* `}` after at least one object member. -/
def parseObjTail : Nat → List (String × Json) → List Char → Option (Json × List Char)
  | 0, _, _ => none
  | fuel + 1, acc, cs =>
    match skipWs cs with
    | '}' :: rest => some (Json.obj acc.reverse, rest)
    | ',' :: rest =>
      match skipWs rest with
      | '"' :: rest1 =>
        match parseStringBody (rest1.length + 1) [] rest1 with
        | none => none
        | some (k, rest2) =>
          match skipWs rest2 with
          | ':' :: rest3 =>
            match parseVal fuel rest3 with
            | none => none
            | some (v, rest4) => parseObjTail fuel ((k, v) :: acc) rest4
          | _ => none
      | _ => none
    | _ => none

end

/-- `JSON.parse` on a character list: parse one value and require that
only whitespace remains. -/
def jsonParseL (cs : List Char) : Option Json :=
  match parseVal (2 * cs.length + 4) cs with
  | some (v, rest) => if skipWs rest = [] then some v else none
  | none => none

/-!
Model of `parseRecommendationsResponse` (geminiService.js).  The source

1. trims the response text,
2. removes every occurrence of the patterns ```` ```json ```` and
   ```` ``` ````, each together with one directly following newline if
   present (the two global regex replaces), and trims again,
3. replaces the text by the match of the greedy regex for a bracketed
   span — the substring running from the first `[` to the last `]` of the
   whole text — when that regex matches,
4. `JSON.parse`s the result, requires a top-level array, drops elements
   whose `title`, `author` or `reason` member is falsy, and fails when no
   element survives; survivors are normalized with `genre` defaulted to
   `"General"`.

A thrown parse error is modelled as `none`.  Note that evaluating
`rec.title` on a `null` array element throws in JavaScript, so an array
containing `null` makes the whole parse fail; `filterValidElems` mirrors
that.
-/

/-- Consume one leading newline if present (the `\n?` tail of the two
fence regexes). -/
def dropNl (cs : List Char) : List Char :=
  match cs with
  | c :: rest => if c = '\n' then rest else c :: rest
  | [] => []

/-- Remove every occurrence of `pat` followed by an optional newline,
scanning left to right (the semantics of a global regex replace by the
empty string).  `fuel` is at least the input length at every call site. -/
def removeTagOpt (pat : List Char) : Nat → List Char → List Char
  | 0, cs => cs
  | _ + 1, [] => []
  | fuel + 1, c :: cs =>
    if pat.isPrefixOf (c :: cs) then
      removeTagOpt pat fuel (dropNl ((c :: cs).drop pat.length))
    else c :: removeTagOpt pat fuel cs

/-- The pattern of the first replace: three backticks then `json`. -/
def fenceJsonPat : List Char := ['`', '`', '`', 'j', 's', 'o', 'n']

/-- The pattern of the second replace: three backticks. -/
def fencePat : List Char := ['`', '`', '`']

/-- Steps 1 and 2 of the cleanup: trim, strip both fence patterns, trim. -/
def stripFences (cs : List Char) : List Char :=
  let t := jsTrim cs
  let t1 := removeTagOpt fenceJsonPat (t.length + 1) t
  let t2 := removeTagOpt fencePat (t1.length + 1) t1
  jsTrim t2

/-- Index of the last occurrence of `c`, if any. -/
def lastIdxOf (c : Char) (cs : List Char) : Option Nat :=
  (cs.reverse.findIdx? (· = c)).map (fun k => cs.length - 1 - k)

/-- Step 3: the match of the greedy regex `\[[\s\S]*\]` — the span from
the first `[` to the last `]` of the whole text — or the text unchanged
when the regex does not match. -/
def extractSpan (cs : List Char) : List Char :=
  match cs.findIdx? (· = '['), lastIdxOf ']' cs with
  | some i, some j => if i < j then (cs.take (j + 1)).drop i else cs
  | _, _ => cs

/-- A recommendation candidate as produced by the parser: the raw member
values of a surviving array element (arbitrary JSON values, exactly as the
source keeps them). -/
structure ParsedRec where
  title : Json
  author : Json
  genre : Json
  reason : Json

/-- Truthiness of the member `k` of an array element (`undefined` for
non-objects and absent members, hence falsy). -/
def propTruthy (e : Json) (k : String) : Bool :=
  match e.getProp k with
  | some v => jsTruthy v
  | none => false

/-- The filter predicate `rec.title && rec.author && rec.reason`. -/
def goodElem (e : Json) : Bool :=
  propTruthy e "title" && propTruthy e "author" && propTruthy e "reason"

/-- Run the validity filter over the array elements left to right.  A
`null` element throws (`rec.title` on `null` is a TypeError), failing the
whole parse. -/
def filterValidElems : List Json → Option (List Json)
  | [] => some []
  | e :: es =>
    match e with
    | Json.null => none
    | _ =>
      match filterValidElems es with
      | none => none
      | some rest => some (if goodElem e then e :: rest else rest)

/-- Normalization of a surviving element: keep the raw member values,
defaulting a falsy `genre` to `"General"`. -/
def normElem (e : Json) : ParsedRec :=
  { title := (e.getProp "title").getD Json.null
    author := (e.getProp "author").getD Json.null
    genre :=
      match e.getProp "genre" with
      | some g => if jsTruthy g then g else Json.str "General"
      | none => Json.str "General"
    reason := (e.getProp "reason").getD Json.null }

/-- `parseRecommendationsResponse` on a character list. -/
def parseRecommendationsL (cs : List Char) : Option (List ParsedRec) :=
  let cleaned := extractSpan (stripFences cs)
  match jsonParseL cleaned with
  | none => none
  | some j =>
    match j with
    | Json.arr es =>
      match filterValidElems es with
      | none => none
      | some valid =>
        if valid.length = 0 then none else some (valid.map normElem)
    | _ => none

/-- Model of `parseRecommendationsResponse` (geminiService.js): cleanup,
`JSON.parse`, array check, validity filter, normalization.  `none` models
the thrown `Failed to parse AI response` error. -/
def parseRecommendationsResponse (responseText : String) : Option (List ParsedRec) :=
  parseRecommendationsL responseText.data

/-!
Model of the taste-profile construction (STEP 3 and STEP 4 of
`getRecommendationsForUser`) and of `buildRecommendationPrompt`
(geminiService.js).
-/

/-- A library row as returned by the persistence collaborator
(`UserBook.getUserBooks`).  Fields the pipeline never reads are omitted;
`authors`/`categories` are `none` when absent or not an array, matching
the `Array.isArray` guards in the source. -/
structure LibraryRow where
  title : String
  authors : Option (List String)
  categories : Option (List String)
  average_rating : Option ℚ
  page_count : Option Nat
deriving DecidableEq

/-- A `recentBooks` sample entry of the profile. -/
structure RecentBook where
  title : String
  author : String
  genre : String
deriving DecidableEq

/-- The taste profile (the `userProfile` object built in STEP 4). -/
structure UserProfile where
  totalBooks : Nat
  topGenres : List String
  favoriteAuthors : List String
  recentBooks : List RecentBook
  avgPageCount : ℤ
  avgRating : ℚ
deriving DecidableEq

/-- One step of the frequency-count accumulation
`counts[key] = (counts[key] || 0) + 1` on an insertion-ordered table (the
model of a JavaScript object with non-numeric string keys, whose
`Object.entries` order is insertion order). -/
def bumpCount (counts : List (String × Nat)) (key : String) : List (String × Nat) :=
  if counts.any (fun p => p.1 = key) then
    counts.map (fun p => if p.1 = key then (p.1, p.2 + 1) else p)
  else counts ++ [(key, 1)]

/-- The genre frequency table: every `categories` entry of every row,
counted in encounter order. -/
def genreCountsOf (userBooks : List LibraryRow) : List (String × Nat) :=
  userBooks.foldl (fun counts book =>
    match book.categories with
    | some cats => cats.foldl bumpCount counts
    | none => counts) []

/-- The author frequency table, built the same way from `authors`. -/
def authorCountsOf (userBooks : List LibraryRow) : List (String × Nat) :=
  userBooks.foldl (fun counts book =>
    match book.authors with
    | some as => as.foldl bumpCount counts
    | none => counts) []

/-- The comparator `(a, b) => b[1] - a[1]` of the source, as the
before-or-equivalent relation of a stable sort: `a` may stay before `b`
iff the count of `a` is at least the count of `b`. -/
def countGE (a b : String × Nat) : Prop := b.2 ≤ a.2

instance : DecidableRel countGE := fun a b => Nat.decLe b.2 a.2

/-- JavaScript `Array.prototype.sort` with the comparator above.
`Array.prototype.sort` is specified to be stable, which determines the
output uniquely; insertion sort is stable, so it is that output. -/
def sortCountsDesc (counts : List (String × Nat)) : List (String × Nat) :=
  List.insertionSort countGE counts

/-- STEP 3 and STEP 4 of `getRecommendationsForUser`: analyze reading
patterns and build the `userProfile` object. -/
def buildUserProfile (userBooks : List LibraryRow) : UserProfile :=
  let topGenres := ((sortCountsDesc (genreCountsOf userBooks)).take 3).map (·.1)
  let favoriteAuthors :=
    ((authorCountsOf userBooks).filter (fun entry => 1 < entry.2)).map (·.1)
  let totalPages := userBooks.foldl (fun sum book => sum + book.page_count.getD 0) (0 : ℕ)
  let avgPageCount := jsRound ((totalPages : ℚ) / (userBooks.length : ℚ))
  let totalRating := userBooks.foldl (fun sum book => sum + book.average_rating.getD 0) (0 : ℚ)
  let avgRating := fixed1 (totalRating / (userBooks.length : ℚ))
  { totalBooks := userBooks.length
    topGenres := topGenres
    favoriteAuthors := favoriteAuthors
    recentBooks := (userBooks.take 3).map (fun b =>
      { title := b.title
        author := jsOrS (b.authors.bind List.head?) "Unknown"
        genre := jsOrS (b.categories.bind List.head?) "Unknown" })
    avgPageCount := avgPageCount
    avgRating := avgRating }

/-- Model of `buildRecommendationPrompt` (geminiService.js): the fixed
prompt template rendered from a profile. -/
def buildRecommendationPrompt (userProfile : UserProfile) : String :=
  let recentBooksText :=
    if 0 < userProfile.recentBooks.length then
      String.intercalate "\n" (userProfile.recentBooks.map (fun book =>
        "  - \"" ++ book.title ++ "\" by " ++ book.author ++ " (" ++
          (if book.genre = "" then "Unknown genre" else book.genre) ++ ")"))
    else "  - No recent books recorded"
  let genresText :=
    if 0 < userProfile.topGenres.length then
      String.intercalate ", " userProfile.topGenres
    else "Various"
  let authorsText :=
    if 0 < userProfile.favoriteAuthors.length then
      String.intercalate ", " userProfile.favoriteAuthors
    else "Various"
  "You are a knowledgeable book recommendation expert. Based on the user\x27s reading profile below, suggest 10 books that they would likely enjoy.\n\nUSER READING PROFILE:\n- Total Books Read: " ++
    toString userProfile.totalBooks ++
    "\n- Average Rating Given: " ++ toFixed1 userProfile.avgRating ++
    "/5.0\n- Favorite Genres: " ++ genresText ++
    "\n- Favorite Authors: " ++ authorsText ++
    "\n\nRECENTLY READ BOOKS:\n" ++ recentBooksText ++
    "\n\nINSTRUCTIONS:\n1. Analyze the user\x27s reading patterns, preferred genres, and favorite authors\n2. Recommend 10 books that align with their tastes\n3. Provide diverse recommendations (mix of popular and hidden gems)\n4. Include books from similar genres but also introduce 1-2 books from complementary genres\n5. For each recommendation, explain WHY it matches the user\x27s preferences\n6. Ensure all recommendations are actual, real books that exist\n\nRESPONSE FORMAT:\nReturn ONLY a valid JSON array with exactly 10 book recommendations in this format:\n[\n  \x7b\n    \"title\": \"Book Title\",\n    \"author\": \"Author Name\",\n    \"genre\": \"Primary Genre\",\n    \"reason\": \"Brief explanation (2-3 sentences) of why this book matches the user\x27s reading profile\"\n  \x7d\n]\n\nIMPORTANT:\n- Return ONLY the JSON array, no additional text before or after\n- Ensure all books are real and accurately attributed to their authors\n- Make sure the JSON is properly formatted and parseable\n- Each reason should be personalized based on the user\x27s specific reading history"

/-!
Model of `getBookRecommendations` (geminiService.js): lazy initialization,
one prompt, primary model, fallback model on any primary failure
(invocation error or parse failure), empty list when the fallback fails
too.  The environment carries the module-level state (`process.env` key
presence, whether the singleton clients are initialized) and the response
behavior of both models.  The returned list of `(tier, prompt)` pairs is
the call trace: which models were invoked, and with which prompt.
-/

/-- The two model tiers. -/
inductive ModelTier where
  | primary
  | fallback
deriving DecidableEq

/-- The environment of `getBookRecommendations`. -/
structure GeminiEnv where
  apiKeyPresent : Bool
  initialized : Bool
  primaryModel : String → Except JsErr String
  fallbackModel : String → Except JsErr String

/-- Model of `getBookRecommendations`.  The first component is the
returned value or the thrown error; the second is the model-invocation
trace. -/
def getBookRecommendations (env : GeminiEnv) (userProfile : UserProfile) :
    Except JsErr (List ParsedRec) × List (ModelTier × String) :=
  if env.initialized = false ∧ env.apiKeyPresent = false then
    -- initializeGemini() throws when GEMINI_API_KEY is absent; nothing
    -- catches it inside this function.
    (.error { message := "GEMINI_API_KEY not found in environment variables" }, [])
  else
    let prompt := buildRecommendationPrompt userProfile
    let fallbackRun : Except JsErr (List ParsedRec) :=
      match env.fallbackModel prompt with
      | .ok text =>
        match parseRecommendationsResponse text with
        | some recs => .ok recs
        | none => .ok []
      | .error _ => .ok []
    match env.primaryModel prompt with
    | .ok text =>
      match parseRecommendationsResponse text with
      | some recs => (.ok recs, [(ModelTier.primary, prompt)])
      | none => (fallbackRun, [(ModelTier.primary, prompt), (ModelTier.fallback, prompt)])
    | .error _ => (fallbackRun, [(ModelTier.primary, prompt), (ModelTier.fallback, prompt)])

/-!
Model of googleBooksService.js (src/unnamed/part_004): the catalog search
adapter, the by-id lookup, and the enrichment stage.  Each outbound axios
request is modelled by its observable outcome: either the response payload
or the thrown error (timeout, HTTP status, network failure).
-/

/-- The `imageLinks` member of a Google Books volume. -/
structure ImageLinks where
  thumbnail : Option String
deriving DecidableEq

/-- The `volumeInfo` member of a Google Books volume; every field may be
absent upstream. -/
structure VolumeInfo where
  title : Option String
  authors : Option (List String)
  description : Option String
  imageLinks : Option ImageLinks
  pageCount : Option Nat
  averageRating : Option ℚ
  ratingsCount : Option Nat
  categories : Option (List String)
  publishedDate : Option String
  previewLink : Option String
  infoLink : Option String
deriving DecidableEq

/-- A raw Google Books volume item. -/
structure GBVolume where
  id : Option String
  volumeInfo : Option VolumeInfo
deriving DecidableEq

/-- The `volumeInfo || {}` default. -/
def emptyVolumeInfo : VolumeInfo :=
  { title := none, authors := none, description := none, imageLinks := none
    pageCount := none, averageRating := none, ratingsCount := none
    categories := none, publishedDate := none, previewLink := none
    infoLink := none }

/-- The canonical book record produced by the adapter. -/
structure Book where
  googleBooksId : String
  title : String
  authors : List String
  description : String
  thumbnail : String
  pageCount : Nat
  averageRating : ℚ
  ratingsCount : Nat
  categories : List String
  publishedDate : String
  previewLink : String
  infoLink : String
deriving DecidableEq

/-- The per-item normalization shared by `searchBooks` and
`getBookDetails`: each absent upstream field is replaced by its documented
default.  (`pageCount || 0`, `averageRating || 0` and `ratingsCount || 0`
coincide with `getD 0` because `0` is falsy; `authors || []` and
`categories || []` coincide with `getD []` because an array is truthy.) -/
def formatVolume (item : GBVolume) : Book :=
  let volumeInfo := item.volumeInfo.getD emptyVolumeInfo
  { googleBooksId := jsOrS item.id ""
    title := jsOrS volumeInfo.title "Unknown Title"
    authors := volumeInfo.authors.getD []
    description := jsOrS volumeInfo.description "No description available"
    thumbnail := jsOrS (volumeInfo.imageLinks.bind (·.thumbnail)) ""
    pageCount := volumeInfo.pageCount.getD 0
    averageRating := volumeInfo.averageRating.getD 0
    ratingsCount := volumeInfo.ratingsCount.getD 0
    categories := volumeInfo.categories.getD []
    publishedDate := jsOrS volumeInfo.publishedDate ""
    previewLink := jsOrS volumeInfo.previewLink ""
    infoLink := jsOrS volumeInfo.infoLink "" }

/-- A thrown axios error: the fields the catch blocks inspect
(`error.code`, `error.response?.status`) plus the message. -/
structure AxiosErr where
  code : Option String
  status : Option Nat
  message : String
deriving DecidableEq

/-- The observable outcome of the one axios GET issued by `searchBooks`:
the `response.data.items` payload on success, or the thrown error.  A
timeout is a thrown error with `code = "ECONNABORTED"`, an HTTP 401/429 a
thrown error with that `status`, a network failure a thrown error with
neither. -/
inductive SearchOutcome where
  | success (items : Option (List GBVolume))
  | failure (e : AxiosErr)

/-- Model of `searchBooks` (part_004, lines 38-102).  The whole body is
wrapped in try/catch; the catch logs a diagnostic categorized on
`error.code`/`error.response?.status` and returns `[]`, so the operation
is total: every failure outcome maps to the empty list, and so does a
missing or empty `items` array.  Query string and `maxResults` only shape
the request, which the outcome already summarizes. -/
def searchBooks (outcome : SearchOutcome) : List Book :=
  match outcome with
  | .failure _ => []
  | .success none => []
  | .success (some []) => []
  | .success (some items) => items.map formatVolume

/-- The observable outcome of the axios GET issued by `getBookDetails`:
the volume payload, or the thrown error (a 404 is a thrown error with
`status = some 404`). -/
inductive DetailsOutcome where
  | success (item : GBVolume)
  | failure (e : AxiosErr)

/-- Model of `getBookDetails` (part_004, lines 166-218): same catch-all
soft-failure contract, returning `null` (`none`) on any thrown error. -/
def getBookDetails (outcome : DetailsOutcome) : Option Book :=
  match outcome with
  | .success item => some (formatVolume item)
  | .failure _ => none

/-- Model of `enrichRecommendations` (part_004, lines 115-154).  The
per-title closures call `searchBooks(title, 1)`; `catalog` gives the axios
outcome of that call for each title.  `Promise.all` collects the closure
results positionally (the fan-out completes in any order, the join is by
position), then the loop pushes the non-null results in order.  The
per-item catch and the outer catch are unreachable in the model because
the embedded `searchBooks` is total. -/
def enrichRecommendations (catalog : String → SearchOutcome)
    (bookTitles : List String) : List Book :=
  let results := bookTitles.map (fun title =>
    match searchBooks (catalog title) with
    | book :: _ => some book
    | [] => none)
  results.foldl (fun enrichedBooks b =>
    match b with
    | some book => enrichedBooks ++ [book]
    | none => enrichedBooks) []

/-!
Model of the recommendation orchestrator `getRecommendationsForUser`.  The
orchestrator module imports `UserBook.getUserBooks`,
`getBookRecommendations`, `enrichRecommendations` and `searchBooks`; the
`Deps` record is exactly that import boundary, carrying the outcome of the
library load and the behavior of the three imported operations
(`Except.error` models a rejected promise).  `mkDeps` below instantiates
the catalog-side dependencies with the embedded part_004 functions.  The
result is paired with a trace of the calls the orchestrator performed,
plus the log line the outer catch emits.
-/

/-- A model candidate at the orchestrator boundary: the four members the
orchestrator reads.  The parser guarantees truthy `title`, `author`,
`reason` and a defaulted `genre` on everything it returns; the string
abstraction is exact for string-valued members, which is the only case the
prompt instructs the model to produce. -/
structure Candidate where
  title : String
  author : String
  genre : String
  reason : String
deriving DecidableEq

/-- A final recommendation: the enriched book record with the rationale
(`reason`) and `genre` merged on. -/
structure Recommendation where
  book : Book
  reason : String
  genre : String
deriving DecidableEq

/-- The `userProfile` member of a result: the insufficient-data path
returns only `{totalBooks}`, the other profile-carrying paths return the
full profile. -/
inductive ProfileOut where
  | totalOnly (totalBooks : Nat)
  | full (p : UserProfile)
deriving DecidableEq

/-- The result envelope of `getRecommendationsForUser`; absent object
fields are `none`. -/
structure RecommendationResult where
  recommendations : List Recommendation
  message : Option String
  userProfile : Option ProfileOut
  source : Option String
  error : Option String
deriving DecidableEq

/-- Trace of the observable actions of one orchestration run. -/
inductive TraceEv where
  | db
  | profileBuilt (p : UserProfile)
  | modelCall
  | enrichCall (titles : List String)
  | searchCall (q : String) (maxResults : Nat)
  | logErr (msg : String)
deriving DecidableEq

/-- JavaScript `Array.prototype.map` with the callback's index argument:
`mapWithIndex f i l` applies `f` to each element together with its
position, starting at `i`. -/
def mapWithIndex (f : Nat → α → β) : Nat → List α → List β
  | _, [] => []
  | i, a :: as => f i a :: mapWithIndex f (i + 1) as

/-- The import boundary of the orchestrator module. -/
structure Deps where
  getUserBooks : Except JsErr (List LibraryRow)
  getBookRecommendations : UserProfile → Except JsErr (List Candidate)
  enrichRecommendations : List String → Except JsErr (List Book)
  searchBooks : String → Nat → Except JsErr (List Book)

/-- The generic message of the outer catch (STEP 7 error response). -/
def genericErrorMessage : String :=
  "An error occurred while generating recommendations. Please try again later."

/-- The result the outer catch builds: empty list, generic message, the
`error` field carrying `error.message`, no `userProfile`, source
`"Error"`. -/
def errorResult (e : JsErr) : RecommendationResult :=
  { recommendations := []
    message := some genericErrorMessage
    userProfile := none
    source := some "Error"
    error := some e.message }

/-- The fallback query of STEP 7: built from the top genre, or the
generic bestseller query when there is no genre signal. -/
def fallbackQueryOf (userProfile : UserProfile) : String :=
  match userProfile.topGenres with
  | g :: _ => g ++ " books highly rated"
  | [] => "bestseller books highly rated"

/-- STEP 7: the genre-based fallback executed by the catch around the AI
path, given the profile built in STEP 4 and the trace so far.  A thrown
`searchBooks` error is not caught here; it propagates to the outer catch
of the orchestrator. -/
def genreFallback (deps : Deps) (userProfile : UserProfile)
    (tr : List TraceEv) : RecommendationResult × List TraceEv :=
  let fallbackQuery := fallbackQueryOf userProfile
  match deps.searchBooks fallbackQuery 10 with
  | .error e =>
    (errorResult e,
     tr ++ [TraceEv.searchCall fallbackQuery 10, TraceEv.logErr e.message])
  | .ok [] =>
    ({ recommendations := []
       message := some "Unable to generate recommendations at this time. Please try again later."
       userProfile := some (ProfileOut.full userProfile)
       source := some "Failed"
       error := none },
     tr ++ [TraceEv.searchCall fallbackQuery 10])
  | .ok fallbackBooks =>
    ({ recommendations := fallbackBooks.map (fun book =>
         { book := book
           reason :=
             match userProfile.topGenres with
             | g :: _ => "Popular " ++ g ++ " book that readers love"
             | [] => "Highly rated book that many readers enjoy"
           genre := jsOrS book.categories.head?
             (jsOrS userProfile.topGenres.head? "General") })
       message := none
       userProfile := some (ProfileOut.full userProfile)
       source := some "Genre-based"
       error := none },
     tr ++ [TraceEv.searchCall fallbackQuery 10])

/-- Model of `getRecommendationsForUser` (geminiService.js service layer,
lines 404-599).  STEP 1 loads the library; STEP 2 gates on fewer than 3
books; STEPs 3-4 build the profile; STEP 5-6 run the AI path inside a
try whose catch is the genre fallback of STEP 7; the outer catch turns any
uncaught throw into the `"Error"` envelope. -/
def getRecommendationsForUser (deps : Deps) :
    RecommendationResult × List TraceEv :=
  match deps.getUserBooks with
  | .error e => (errorResult e, [TraceEv.db, TraceEv.logErr e.message])
  | .ok userBooks =>
    if userBooks.length < 3 then
      ({ recommendations := []
         message := some "Add at least 3 books to get personalized recommendations"
         userProfile := some (ProfileOut.totalOnly userBooks.length)
         source := none
         error := none },
       [TraceEv.db])
    else
      let userProfile := buildUserProfile userBooks
      let tr0 := [TraceEv.db, TraceEv.profileBuilt userProfile]
      match deps.getBookRecommendations userProfile with
      | .ok geminiRecs =>
        if 0 < geminiRecs.length then
          let bookTitles := geminiRecs.map (·.title)
          match deps.enrichRecommendations bookTitles with
          | .ok enriched =>
            let finalRecommendations := mapWithIndex (fun index book =>
              { book := book
                reason := jsOrS (geminiRecs[index]?.map (·.reason))
                  "Recommended based on your reading history"
                genre := jsOrS (geminiRecs[index]?.map (·.genre))
                  (jsOrS book.categories.head? "General") }) 0 enriched
            ({ recommendations := finalRecommendations
               message := none
               userProfile := some (ProfileOut.full userProfile)
               source := some "AI-powered"
               error := none },
             tr0 ++ [TraceEv.modelCall, TraceEv.enrichCall bookTitles])
          | .error _ =>
            genreFallback deps userProfile
              (tr0 ++ [TraceEv.modelCall, TraceEv.enrichCall bookTitles])
        else
          -- `throw new Error("No recommendations from Gemini")`, caught by
          -- the same catch that runs the genre fallback.
          genreFallback deps userProfile (tr0 ++ [TraceEv.modelCall])
      | .error _ => genreFallback deps userProfile (tr0 ++ [TraceEv.modelCall])

/-- Instantiate the catalog-side dependencies of the orchestrator with the
embedded part_004 functions over a per-request axios behavior `catalog`
(the enrichment looks titles up with `maxResults = 1`). -/
def mkDeps (db : Except JsErr (List LibraryRow))
    (gemini : Except JsErr (List Candidate))
    (catalog : String → Nat → SearchOutcome) : Deps :=
  { getUserBooks := db
    getBookRecommendations := fun _ => gemini
    enrichRecommendations := fun titles =>
      .ok (enrichRecommendations (fun t => catalog t 1) titles)
    searchBooks := fun q mx => .ok (searchBooks (catalog q mx)) }

/-!
Spec-side reference definitions.  Each follows the wording of the spec or
claim it formalizes (they are deliberately not transcriptions of the
source) and is used to compare the source behavior against the claimed
behavior.
-/

/-- Depth-tracking scan for the first balanced bracketed span: consume
characters, counting `[` up and `]` down, and stop at the `]` that closes
the first `[`. -/
def balancedScan : List Char → Nat → List Char → Option (List Char)
  | [], _, _ => none
  | c :: cs, depth, acc =>
    if c = '[' then balancedScan cs (depth + 1) (c :: acc)
    else if c = ']' then
      if depth = 1 then some (c :: acc).reverse
      else balancedScan cs (depth - 1) (c :: acc)
    else balancedScan cs depth (c :: acc)

/-- Reference for the extraction step as the spec and claim C2 word it:
the first balanced `[...]` substring — from the first `[` through its
matching `]`. -/
def extractFirstBalancedArray (cs : List Char) : Option (List Char) :=
  balancedScan (cs.dropWhile (fun c => c ≠ '[')) 0 []

/-- Whether a key is present in an insertion-ordered count table. -/
def hasKey (m : List (String × Nat)) (k : String) : Bool :=
  m.any (fun p => p.1 = k)

/-- Fuel-indexed worker for `firstSeen`: structurally recursive on the
fuel, so that concrete instances evaluate by reduction.  The fuel is
adequate whenever it is at least the list length, since filtering only
shortens the tail. -/
def firstSeenF : Nat → List String → List String
  | 0, _ => []
  | _ + 1, [] => []
  | n + 1, x :: xs => x :: firstSeenF n (xs.filter (fun y => y ≠ x))

/-- The distinct elements of a list in first-seen order. -/
def firstSeen (l : List String) : List String := firstSeenF l.length l

/-- All `categories` entries of all rows, flattened in row order. -/
def flatCategories (rows : List LibraryRow) : List String :=
  rows.flatMap (fun b => b.categories.getD [])

/-- All `authors` entries of all rows, flattened in row order. -/
def flatAuthors (rows : List LibraryRow) : List String :=
  rows.flatMap (fun b => b.authors.getD [])

/-- Reference frequency table as the spec words it: the distinct keys in
first-seen order, each with its total number of occurrences. -/
def freqTableSpec (keys : List String) : List (String × Nat) :=
  (firstSeen keys).map (fun k => (k, keys.count k))

/-- Reference ranking as claim C6 words it: repeatedly select the
earliest-seen entry of maximal count (frequency descending, ties kept in
first-seen order). -/
def rankByFreqSpec (tbl : List (String × Nat)) : List (String × Nat) :=
  go tbl.length tbl
where
  /-- Select-maximum loop with fuel. -/
  go : Nat → List (String × Nat) → List (String × Nat)
  | 0, _ => []
  | _ + 1, [] => []
  | fuel + 1, e :: rest =>
    let best := rest.foldl (fun acc p => if acc.2 < p.2 then p else acc) e
    best :: go fuel ((e :: rest).erase best)

/-- The number of library rows on whose author list `a` appears. -/
def rowsWithAuthor (rows : List LibraryRow) (a : String) : Nat :=
  rows.countP (fun b => (b.authors.getD []).contains a)

/-- The reference taste profile exactly as claim C6 words it: `topGenres`
ranked by frequency descending with ties first-seen; `favoriteAuthors` =
the deduplicated authors appearing on more than one row, first-seen order;
`avgRating` and `avgPageCount` averaged over the rows where the field is
present, rows missing a page count contributing 0 to the page sum.
(`totalBooks` and `recentBooks` are not at issue in the claim and follow
the source.) -/
def tasteProfileSpecRef (rows : List LibraryRow) : UserProfile :=
  let ratedRows := rows.filter (fun b => b.average_rating.isSome)
  let pagedRows := rows.filter (fun b => b.page_count.isSome)
  { totalBooks := rows.length
    topGenres :=
      ((rankByFreqSpec (freqTableSpec (flatCategories rows))).take 3).map (·.1)
    favoriteAuthors :=
      (firstSeen (flatAuthors rows)).filter (fun a => 1 < rowsWithAuthor rows a)
    recentBooks := (rows.take 3).map (fun b =>
      { title := b.title
        author := jsOrS (b.authors.bind List.head?) "Unknown"
        genre := jsOrS (b.categories.bind List.head?) "Unknown" })
    avgPageCount :=
      jsRound (((rows.map (fun b => b.page_count.getD 0)).sum : ℚ) /
        (pagedRows.length : ℚ))
    avgRating :=
      fixed1 ((ratedRows.map (fun b => b.average_rating.getD 0)).sum /
        (ratedRows.length : ℚ)) }

/-- The amended reference for `favoriteAuthors`: authors occurring more
than once across all author lists (repetitions inside a single row
included), first-seen order. -/
def favoriteAuthorsAmended (rows : List LibraryRow) : List String :=
  (firstSeen (flatAuthors rows)).filter (fun a => 1 < (flatAuthors rows).count a)

/-- The stable descending-by-count sort specification of the spec text
(\x22sort descending by count; on tied counts, preserve first-seen order
(stable sort)\x22): `M` is the table `L` sorted so that counts never
increase, as a permutation, with each fixed-count class kept in the order
of `L`. -/
def stableSortSpec (L M : List (String × Nat)) : Prop :=
  List.Sorted countGE M ∧ List.Perm M L ∧
    ∀ c : Nat, M.filter (fun e => e.2 = c) = L.filter (fun e => e.2 = c)

/-!
Concrete fixtures used by witnesses and counterexamples.
-/

/-- A parse-failure input for claim C2: prose surrounds a well-formed
array and the trailing prose contains a `]`, so the greedy span from the
first `[` to the last `]` is not valid JSON, while the first balanced
`[...]` substring is. -/
def proseWrapped : String :=
  "Sure! [\x7b\"title\":\"T\",\"author\":\"A\",\"reason\":\"R\"\x7d] Hope this helps :]"

/-- The same array without surrounding prose. -/
def bareArray : String :=
  "[\x7b\"title\":\"T\",\"author\":\"A\",\"reason\":\"R\"\x7d]"

/-- The fenced response of the spec's parser-robustness test. -/
def fencedExample : String :=
  "```json\n[\x7b\"title\":\"T\",\"author\":\"A\",\"genre\":\"G\",\"reason\":\"R\"\x7d]\n```"

/-- The element text of `bareArray`, so that
`bareArray.data = '[' :: (bareInner.data ++ [']'])`. -/
def bareInner : String :=
  "\x7b\"title\":\"T\",\"author\":\"A\",\"reason\":\"R\"\x7d"

/-- A library row fixture. -/
def rowFix (t : String) (as : List String) (cats : List String)
    (rating : Option ℚ) (pages : Option Nat) : LibraryRow :=
  { title := t, authors := some as, categories := some cats
    average_rating := rating, page_count := pages }

/-- The three-row library refuting claim C6: one row lists the same
author twice (favorite by occurrence count, not by row count), and only
one row carries a rating and a page count (the source divides by 3, the
claimed reference by 1). -/
def cxRows : List LibraryRow :=
  [rowFix "B1" ["X", "X"] ["A"] (some 5) (some 300),
   rowFix "B2" ["Y"] ["A"] none none,
   rowFix "B3" ["Z"] ["B"] none none]

/-- A five-row library whose top genre is `Fantasy`. -/
def fantasyRows : List LibraryRow :=
  [rowFix "F1" ["AuthA"] ["Fantasy"] (some 4) (some 100),
   rowFix "F2" ["AuthB"] ["Fantasy"] (some 5) (some 200),
   rowFix "F3" ["AuthC"] ["Sci-Fi"] (some 3) (some 300)]

/-- A two-row library (below the gate). -/
def twoRows : List LibraryRow :=
  [rowFix "B1" ["X"] ["A"] (some 4) (some 100),
   rowFix "B2" ["Y"] ["B"] (some 5) (some 200)]

/-- A Google Books volume fixture carrying only an id and a title. -/
def volFix (bid t : String) : GBVolume :=
  { id := some bid
    volumeInfo := some { emptyVolumeInfo with title := some t } }

/-- The enrichment catalog behavior for the C7 drop scenario: the second
title finds no match, the others find one volume each. -/
def dropCatalog : String → SearchOutcome := fun title =>
  if title = "T1" then SearchOutcome.success (some [volFix "id1" "Book One"])
  else if title = "T3" then SearchOutcome.success (some [volFix "id3" "Book Three"])
  else SearchOutcome.success (some [])

/-- The enrichment catalog behavior for the C7 failure scenario: the
second lookup throws (simulated network failure), the others succeed. -/
def failCatalog : String → SearchOutcome := fun title =>
  if title = "T1" then SearchOutcome.success (some [volFix "id1" "Book One"])
  else if title = "T3" then SearchOutcome.success (some [volFix "id3" "Book Three"])
  else SearchOutcome.failure { code := none, status := none, message := "socket hang up" }

/-- Dependencies whose library load rejects with message `boom`; the rest
is inert. -/
def depsDbBoom : Deps :=
  { getUserBooks := .error { message := "boom" }
    getBookRecommendations := fun _ => .ok []
    enrichRecommendations := fun _ => .ok []
    searchBooks := fun _ _ => .ok [] }

/-- Dependencies for the gate witness (two-row library). -/
def depsTwoRows : Deps :=
  { getUserBooks := .ok twoRows
    getBookRecommendations := fun _ => .ok []
    enrichRecommendations := fun _ => .ok []
    searchBooks := fun _ _ => .ok [] }

/-- A minimal user profile fixture. -/
def profileFix : UserProfile :=
  { totalBooks := 5, topGenres := ["Fantasy"], favoriteAuthors := []
    recentBooks := [], avgPageCount := 200, avgRating := 4 }

/-- A Gemini environment in which both models reject. -/
def envBothFail : GeminiEnv :=
  { apiKeyPresent := true, initialized := true
    primaryModel := fun _ => .error { message := "429 quota exceeded" }
    fallbackModel := fun _ => .error { message := "429 quota exceeded" } }

/-- The two model candidates of the C9 misattribution scenario. -/
def candA : Candidate :=
  { title := "Alpha", author := "AA", genre := "Fantasy", reason := "RA" }

/-- Second candidate of the C9 misattribution scenario. -/
def candB : Candidate :=
  { title := "Beta", author := "BB", genre := "Mystery", reason := "RB" }

/-- Catalog behavior for the C9 misattribution scenario: the first title
finds no match and is dropped, the second finds its volume. -/
def dropFirstCatalog : String → Nat → SearchOutcome := fun title _ =>
  if title = "Beta" then SearchOutcome.success (some [volFix "idB" "Beta"])
  else SearchOutcome.success (some [])

/-- Catalog behavior in which both C9 candidate titles find their
volume. -/
def bothMatchCatalog : String → Nat → SearchOutcome := fun title _ =>
  if title = "Alpha" then SearchOutcome.success (some [volFix "idA" "Alpha"])
  else if title = "Beta" then SearchOutcome.success (some [volFix "idB" "Beta"])
  else SearchOutcome.success (some [])

/-- Two popular books returned by the genre-fallback catalog search. -/
def popBooks : List Book :=
  [formatVolume (volFix "idP1" "Pop1"), formatVolume (volFix "idP2" "Pop2")]

/-- Dependencies for the genre-fallback witness: five-library user, model
client returns zero candidates, catalog search returns `popBooks`. -/
def depsGenreFallback : Deps :=
  { getUserBooks := .ok fantasyRows
    getBookRecommendations := fun _ => .ok []
    enrichRecommendations := fun _ => .ok []
    searchBooks := fun _ _ => .ok popBooks }

/-- Default book record (used only by `List.headI` in statements about
nonempty search results). -/
instance : Inhabited Book :=
  ⟨formatVolume { id := none, volumeInfo := none }⟩

/-!
Helper lemmas shared by several claim theorems.
-/

/-- The push loop of the enrichment stage appends exactly the non-null
results, in order. -/
lemma enrich_foldl_push (results : List (Option Book)) (acc : List Book) :
    results.foldl (fun enrichedBooks b =>
      match b with
      | some book => enrichedBooks ++ [book]
      | none => enrichedBooks) acc = acc ++ results.reduceOption := by
  induction results generalizing acc with
  | nil => simp [List.reduceOption]
  | cons r rs ih =>
    cases r with
    | some b => simp [List.foldl_cons, ih, List.reduceOption_cons_of_some]
    | none => simp [List.foldl_cons, ih, List.reduceOption_cons_of_none]

/-- The enrichment stage equals a filterMap of the best match, keeping
surviving titles in input order. -/
lemma enrichRecommendations_eq_filterMap (catalog : String → SearchOutcome)
    (bookTitles : List String) :
    enrichRecommendations catalog bookTitles =
      bookTitles.filterMap (fun t => (searchBooks (catalog t)).head?) := by
  unfold enrichRecommendations
  rw [enrich_foldl_push]
  have hfun : (fun title =>
      match searchBooks (catalog title) with
      | book :: _ => some book
      | [] => none) = fun t => (searchBooks (catalog t)).head? := by
    funext t
    cases searchBooks (catalog t) <;> rfl
  rw [hfun, List.nil_append, List.reduceOption, List.filterMap_map]
  rfl

/-- Claim C10: for every input title list, `enrichRecommendations`
preserves the relative input order of the surviving titles — it is exactly
the sequence of best-match records of the titles that matched, in input
order (the join collects results positionally before compacting out the
misses). -/
theorem C10_order_preserved (catalog : String → SearchOutcome)
    (bookTitles : List String) :
    enrichRecommendations catalog bookTitles =
      bookTitles.filterMap (fun t => (searchBooks (catalog t)).head?) :=
  enrichRecommendations_eq_filterMap catalog bookTitles

/-- Claim C7: the enrichment stage joins the per-title lookups (the
fan-out/fan-in of `Promise.all` is modelled as the positional join it
performs); a title that yields no match is dropped silently with no
placeholder, so the output length is at most the input length; no single
per-title lookup failure aborts the batch.  Concretely, 3 titles whose 2nd
yields no match produce exactly the 2 records of the 1st and 3rd, and the
same when the 2nd lookup throws instead. -/
theorem C7_enrichment_drop :
    (∀ (catalog : String → SearchOutcome) (bookTitles : List String),
      (enrichRecommendations catalog bookTitles).length ≤ bookTitles.length) ∧
    enrichRecommendations dropCatalog ["T1", "T2", "T3"] =
      [formatVolume (volFix "id1" "Book One"), formatVolume (volFix "id3" "Book Three")] ∧
    enrichRecommendations failCatalog ["T1", "T2", "T3"] =
      [formatVolume (volFix "id1" "Book One"), formatVolume (volFix "id3" "Book Three")] := by
  refine ⟨fun catalog bookTitles => ?_, rfl, rfl⟩
  rw [enrichRecommendations_eq_filterMap]
  exact List.length_filterMap_le _ _

/-- Claim C4: `searchBooks` never raises on timeout, authentication
failure, rate-limit, or any other thrown request error — it returns the
empty list in every such case (the embedded function is total, mirroring
the catch-all in the source) — and an upstream response with no items or
zero items also yields the empty list; `getBookDetails` obeys the same
soft-failure contract and returns `null` (`none`) for every thrown error,
a 404 included. -/
theorem C4_soft_failure :
    (∀ e : AxiosErr, searchBooks (SearchOutcome.failure e) = []) ∧
    searchBooks (SearchOutcome.failure
      { code := some "ECONNABORTED", status := none, message := "timeout of 10000ms exceeded" }) = [] ∧
    searchBooks (SearchOutcome.failure
      { code := none, status := some 401, message := "Request failed with status code 401" }) = [] ∧
    searchBooks (SearchOutcome.failure
      { code := none, status := some 429, message := "Request failed with status code 429" }) = [] ∧
    searchBooks (SearchOutcome.success none) = [] ∧
    searchBooks (SearchOutcome.success (some [])) = [] ∧
    (∀ e : AxiosErr, getBookDetails (DetailsOutcome.failure e) = none) ∧
    getBookDetails (DetailsOutcome.failure
      { code := none, status := some 404, message := "Request failed with status code 404" }) = none :=
  ⟨fun _ => rfl, rfl, rfl, rfl, rfl, rfl, fun _ => rfl, rfl⟩

/-- Claim C1, counterexample: when the library load rejects with message
`boom`, the orchestrator returns the `"Error"` envelope as the claim says,
but the original error detail IS returned to the caller, in the `error`
field of the result — refuting the sentence that the detail is logged and
not returned. -/
theorem C1_error_detail_returned_cx :
    (getRecommendationsForUser depsDbBoom).1.error = some "boom" ∧
    (getRecommendationsForUser depsDbBoom).1.source = some "Error" ∧
    (getRecommendationsForUser depsDbBoom).1.recommendations = [] ∧
    (getRecommendationsForUser depsDbBoom).1.message = some genericErrorMessage :=
  ⟨rfl, rfl, rfl, rfl⟩

/-- Claim C1 (amended): an exception that reaches the orchestrator
boundary — a rejected library load, or a rejected fallback catalog search
(the two deps whose throws are not caught by an inner handler) — never
propagates: the call returns `recommendations = []`, `source = "Error"`,
the generic message, and the original error message both in the log and in
the `error` field of the result (amendment: the detail is returned, not
withheld). -/
theorem C1_error_envelope (deps : Deps) (e : JsErr) :
    (deps.getUserBooks = .error e →
      getRecommendationsForUser deps =
        (errorResult e, [TraceEv.db, TraceEv.logErr e.message])) ∧
    (∀ rows, deps.getUserBooks = .ok rows → 3 ≤ rows.length →
      (deps.getBookRecommendations (buildUserProfile rows) = .ok [] ∨
        (∃ e2, deps.getBookRecommendations (buildUserProfile rows) = .error e2)) →
      deps.searchBooks (fallbackQueryOf (buildUserProfile rows)) 10 = .error e →
      getRecommendationsForUser deps =
        (errorResult e,
         [TraceEv.db, TraceEv.profileBuilt (buildUserProfile rows), TraceEv.modelCall,
          TraceEv.searchCall (fallbackQueryOf (buildUserProfile rows)) 10,
          TraceEv.logErr e.message])) ∧
    errorResult e =
      { recommendations := []
        message := some genericErrorMessage
        userProfile := none
        source := some "Error"
        error := some e.message } := by
  refine ⟨fun h => ?_, fun rows hdb hlen hg hsearch => ?_, rfl⟩
  · unfold getRecommendationsForUser
    rw [h]
  · have hnot : ¬ rows.length < 3 := by omega
    rcases hg with hg | ⟨e2, hg⟩ <;>
      simp [getRecommendationsForUser, hdb, hnot, hg, genreFallback, hsearch]

/-- Witness for C1: the amended theorem applied to the concrete rejected
library load. -/
theorem C1_error_envelope_witness :
    depsDbBoom.getUserBooks = .error { message := "boom" } ∧
    getRecommendationsForUser depsDbBoom =
      (errorResult { message := "boom" }, [TraceEv.db, TraceEv.logErr "boom"]) :=
  ⟨rfl, (C1_error_envelope depsDbBoom { message := "boom" }).1 rfl⟩

/-- The genre fallback only appends to the trace it is given. -/
lemma genreFallback_mem_trace (deps : Deps) (p : UserProfile)
    (tr : List TraceEv) (ev : TraceEv) (h : ev ∈ tr) :
    ev ∈ (genreFallback deps p tr).2 := by
  unfold genreFallback
  cases hs : deps.searchBooks (fallbackQueryOf p) 10 with
  | error e => simp [hs, h]
  | ok books => cases books <;> simp [hs, h]

/-- Claim C3: for a user whose library has fewer than 3 rows, the
orchestrator returns the empty list, the add-at-least-3-books message and
the `{totalBooks}`-only profile, sets no `source`, and performs no model
invocation; for 3 or more rows, the taste profile is built. -/
theorem C3_gate (deps : Deps) (rows : List LibraryRow)
    (hdb : deps.getUserBooks = .ok rows) :
    (rows.length < 3 →
      getRecommendationsForUser deps =
        ({ recommendations := []
           message := some "Add at least 3 books to get personalized recommendations"
           userProfile := some (ProfileOut.totalOnly rows.length)
           source := none
           error := none }, [TraceEv.db]) ∧
      (getRecommendationsForUser deps).1.source ≠ some "AI-powered" ∧
      (getRecommendationsForUser deps).1.source ≠ some "Genre-based" ∧
      TraceEv.modelCall ∉ (getRecommendationsForUser deps).2) ∧
    (3 ≤ rows.length →
      TraceEv.profileBuilt (buildUserProfile rows) ∈
        (getRecommendationsForUser deps).2) := by
  constructor
  · intro hlt
    have heq : getRecommendationsForUser deps =
        ({ recommendations := []
           message := some "Add at least 3 books to get personalized recommendations"
           userProfile := some (ProfileOut.totalOnly rows.length)
           source := none
           error := none }, [TraceEv.db]) := by
      simp [getRecommendationsForUser, hdb, hlt]
    refine ⟨heq, ?_, ?_, ?_⟩ <;> rw [heq] <;> simp
  · intro hge
    have hnot : ¬ rows.length < 3 := by omega
    cases hg : deps.getBookRecommendations (buildUserProfile rows) with
    | ok recs =>
      by_cases h0 : 0 < recs.length
      · cases he : deps.enrichRecommendations (recs.map (·.title)) with
        | ok enriched =>
          simp [getRecommendationsForUser, hdb, hnot, hg, h0, he]
        | error e2 =>
          have hred : getRecommendationsForUser deps =
              genreFallback deps (buildUserProfile rows)
                [TraceEv.db, TraceEv.profileBuilt (buildUserProfile rows),
                 TraceEv.modelCall, TraceEv.enrichCall (recs.map (fun x => x.title))] := by
            simp [getRecommendationsForUser, hdb, hnot, hg, h0, he]
          rw [hred]
          apply genreFallback_mem_trace
          simp
      · have hred : getRecommendationsForUser deps =
            genreFallback deps (buildUserProfile rows)
              [TraceEv.db, TraceEv.profileBuilt (buildUserProfile rows),
               TraceEv.modelCall] := by
          simp [getRecommendationsForUser, hdb, hnot, hg, h0]
        rw [hred]
        apply genreFallback_mem_trace
        simp
    | error e2 =>
      have hred : getRecommendationsForUser deps =
          genreFallback deps (buildUserProfile rows)
            [TraceEv.db, TraceEv.profileBuilt (buildUserProfile rows),
             TraceEv.modelCall] := by
        simp [getRecommendationsForUser, hdb, hnot, hg]
      rw [hred]
      apply genreFallback_mem_trace
      simp

/-- Witness for C3: the gate theorem applied to a concrete two-row
library, and the profile-built half applied to a concrete five-book
library. -/
theorem C3_gate_witness :
    (twoRows.length < 3 ∧
      getRecommendationsForUser depsTwoRows =
        ({ recommendations := []
           message := some "Add at least 3 books to get personalized recommendations"
           userProfile := some (ProfileOut.totalOnly twoRows.length)
           source := none
           error := none }, [TraceEv.db])) ∧
    (3 ≤ fantasyRows.length ∧
      TraceEv.profileBuilt (buildUserProfile fantasyRows) ∈
        (getRecommendationsForUser depsGenreFallback).2) :=
  ⟨⟨by decide, ((C3_gate depsTwoRows twoRows rfl).1 (by decide)).1⟩,
   ⟨by decide, (C3_gate depsGenreFallback fantasyRows rfl).2 (by decide)⟩⟩

/-- Claim C8: whenever the model client returns zero candidates or
throws, the orchestrator queries the catalog with the top-genre query
(`"<top genre> books highly rated"`, or `"bestseller books highly rated"`
with no genre signal) for up to 10 results; a non-empty result is returned
with `source = "Genre-based"` and the generic reason text on every item; a
zero-result fallback search yields `{recommendations: [], source:
"Failed"}` with a non-empty message. -/
theorem C8_genre_fallback (deps : Deps) (rows : List LibraryRow)
    (hdb : deps.getUserBooks = .ok rows) (hlen : 3 ≤ rows.length)
    (hg : deps.getBookRecommendations (buildUserProfile rows) = .ok [] ∨
      ∃ e, deps.getBookRecommendations (buildUserProfile rows) = .error e) :
    ((buildUserProfile rows).topGenres = [] →
      fallbackQueryOf (buildUserProfile rows) = "bestseller books highly rated") ∧
    (∀ g gs, (buildUserProfile rows).topGenres = g :: gs →
      fallbackQueryOf (buildUserProfile rows) = g ++ " books highly rated") ∧
    TraceEv.searchCall (fallbackQueryOf (buildUserProfile rows)) 10 ∈
      (getRecommendationsForUser deps).2 ∧
    (deps.searchBooks (fallbackQueryOf (buildUserProfile rows)) 10 = .ok [] →
      (getRecommendationsForUser deps).1 =
        { recommendations := []
          message := some "Unable to generate recommendations at this time. Please try again later."
          userProfile := some (ProfileOut.full (buildUserProfile rows))
          source := some "Failed"
          error := none }) ∧
    (∀ books, books ≠ [] →
      deps.searchBooks (fallbackQueryOf (buildUserProfile rows)) 10 = .ok books →
      (getRecommendationsForUser deps).1.source = some "Genre-based" ∧
      (getRecommendationsForUser deps).1.recommendations.map (·.book) = books ∧
      ∀ r ∈ (getRecommendationsForUser deps).1.recommendations,
        r.reason =
          match (buildUserProfile rows).topGenres with
          | g :: _ => "Popular " ++ g ++ " book that readers love"
          | [] => "Highly rated book that many readers enjoy") := by
  have hnot : ¬ rows.length < 3 := by omega
  have hred : getRecommendationsForUser deps =
      genreFallback deps (buildUserProfile rows)
        [TraceEv.db, TraceEv.profileBuilt (buildUserProfile rows),
         TraceEv.modelCall] := by
    rcases hg with hg | ⟨e, hg⟩ <;> simp [getRecommendationsForUser, hdb, hnot, hg]
  refine ⟨fun h0 => by simp [fallbackQueryOf, h0],
    fun g gs h0 => by simp [fallbackQueryOf, h0], ?_, ?_, ?_⟩
  · rw [hred]
    cases hs : deps.searchBooks (fallbackQueryOf (buildUserProfile rows)) 10 with
    | error e => simp [genreFallback, hs]
    | ok books => cases books <;> simp [genreFallback, hs]
  · intro hs
    rw [hred]
    simp [genreFallback, hs]
  · intro books hne hs
    rw [hred]
    cases books with
    | nil => exact absurd rfl hne
    | cons b bs =>
      refine ⟨by simp [genreFallback, hs], ?_, ?_⟩
      · simp [genreFallback, hs, List.map_map, Function.comp_def]
      · intro r hr
        simp only [genreFallback, hs] at hr
        simp only [List.mem_map] at hr
        obtain ⟨bk, _, hbk⟩ := hr
        rw [← hbk]

/-- Witness for C8: a five-book Fantasy library, a model client returning
zero candidates, and a catalog returning two books yield a Genre-based
result carrying the generic Fantasy reason on every item. -/
theorem C8_genre_fallback_witness :
    3 ≤ fantasyRows.length ∧
    (getRecommendationsForUser depsGenreFallback).1.source = some "Genre-based" ∧
    (getRecommendationsForUser depsGenreFallback).1.recommendations.map (·.book) = popBooks ∧
    ∀ r ∈ (getRecommendationsForUser depsGenreFallback).1.recommendations,
      r.reason = "Popular Fantasy book that readers love" := by
  have h := (C8_genre_fallback depsGenreFallback fantasyRows rfl (by decide)
    (Or.inl rfl)).2.2.2.2 popBooks (by decide) rfl
  exact ⟨by decide, h.1, h.2.1, fun r hr => by rw [h.2.2 r hr]; rfl⟩

/-- Claim C5: `getBookRecommendations` builds one prompt; the returned
value is always `Except.ok` (the operation never raises for any behavior
of the two models, given the client is initialized or initializable); on
any primary invocation error or primary parse failure the secondary model
is invoked with the identical prompt; when the secondary also fails
(invocation or parse) the result is the empty list. -/
theorem C5_model_fallback (env : GeminiEnv) (userProfile : UserProfile)
    (hinit : env.initialized = true ∨ env.apiKeyPresent = true) :
    (∃ recs, (getBookRecommendations env userProfile).1 = .ok recs) ∧
    ((getBookRecommendations env userProfile).2 =
        [(ModelTier.primary, buildRecommendationPrompt userProfile)] ∨
      (getBookRecommendations env userProfile).2 =
        [(ModelTier.primary, buildRecommendationPrompt userProfile),
         (ModelTier.fallback, buildRecommendationPrompt userProfile)]) ∧
    (∀ e, env.primaryModel (buildRecommendationPrompt userProfile) = .error e →
      (getBookRecommendations env userProfile).2 =
        [(ModelTier.primary, buildRecommendationPrompt userProfile),
         (ModelTier.fallback, buildRecommendationPrompt userProfile)]) ∧
    (∀ t, env.primaryModel (buildRecommendationPrompt userProfile) = .ok t →
      parseRecommendationsResponse t = none →
      (getBookRecommendations env userProfile).2 =
        [(ModelTier.primary, buildRecommendationPrompt userProfile),
         (ModelTier.fallback, buildRecommendationPrompt userProfile)]) ∧
    (((∃ e, env.primaryModel (buildRecommendationPrompt userProfile) = .error e) ∨
        (∃ t, env.primaryModel (buildRecommendationPrompt userProfile) = .ok t ∧
          parseRecommendationsResponse t = none)) →
      ((∃ e, env.fallbackModel (buildRecommendationPrompt userProfile) = .error e) ∨
        (∃ t, env.fallbackModel (buildRecommendationPrompt userProfile) = .ok t ∧
          parseRecommendationsResponse t = none)) →
      (getBookRecommendations env userProfile).1 = .ok []) := by
  have hcond : ¬ (env.initialized = false ∧ env.apiKeyPresent = false) := by
    rcases hinit with h | h <;> simp [h]
  cases hp : env.primaryModel (buildRecommendationPrompt userProfile) with
  | ok t =>
    cases hparse : parseRecommendationsResponse t with
    | some recs =>
      have hout : getBookRecommendations env userProfile =
          (.ok recs, [(ModelTier.primary, buildRecommendationPrompt userProfile)]) := by
        simp [getBookRecommendations, hcond, hp, hparse]
      refine ⟨⟨recs, by rw [hout]⟩, Or.inl (by rw [hout]), ?_, ?_, ?_⟩
      · intro e he
        exact Except.noConfusion he
      · intro t2 ht2 hparse2
        injection ht2 with h2
        subst h2
        rw [hparse] at hparse2
        exact Option.noConfusion hparse2
      · intro hfail _
        rcases hfail with ⟨e, he⟩ | ⟨t2, ht2, hp2⟩
        · exact Except.noConfusion he
        · injection ht2 with h2
          subst h2
          rw [hparse] at hp2
          exact Option.noConfusion hp2
    | none =>
      cases hf : env.fallbackModel (buildRecommendationPrompt userProfile) with
      | ok t2 =>
        cases hparse2 : parseRecommendationsResponse t2 with
        | some recs2 =>
          have hout : getBookRecommendations env userProfile =
              (.ok recs2, [(ModelTier.primary, buildRecommendationPrompt userProfile),
                (ModelTier.fallback, buildRecommendationPrompt userProfile)]) := by
            simp [getBookRecommendations, hcond, hp, hparse, hf, hparse2]
          refine ⟨⟨recs2, by rw [hout]⟩, Or.inr (by rw [hout]),
            fun e he => by rw [hout], fun t3 ht3 hp3 => by rw [hout], ?_⟩
          intro _ hfb
          rcases hfb with ⟨e, he⟩ | ⟨t3, ht3, hp3⟩
          · exact Except.noConfusion he
          · injection ht3 with h3
            subst h3
            rw [hparse2] at hp3
            exact Option.noConfusion hp3
        | none =>
          have hout : getBookRecommendations env userProfile =
              (.ok [], [(ModelTier.primary, buildRecommendationPrompt userProfile),
                (ModelTier.fallback, buildRecommendationPrompt userProfile)]) := by
            simp [getBookRecommendations, hcond, hp, hparse, hf, hparse2]
          exact ⟨⟨[], by rw [hout]⟩, Or.inr (by rw [hout]),
            fun e he => by rw [hout], fun t3 ht3 hp3 => by rw [hout],
            fun _ _ => by rw [hout]⟩
      | error e2 =>
        have hout : getBookRecommendations env userProfile =
            (.ok [], [(ModelTier.primary, buildRecommendationPrompt userProfile),
              (ModelTier.fallback, buildRecommendationPrompt userProfile)]) := by
          simp [getBookRecommendations, hcond, hp, hparse, hf]
        exact ⟨⟨[], by rw [hout]⟩, Or.inr (by rw [hout]),
          fun e he => by rw [hout], fun t3 ht3 hp3 => by rw [hout],
          fun _ _ => by rw [hout]⟩
  | error e =>
    cases hf : env.fallbackModel (buildRecommendationPrompt userProfile) with
    | ok t2 =>
      cases hparse2 : parseRecommendationsResponse t2 with
      | some recs2 =>
        have hout : getBookRecommendations env userProfile =
            (.ok recs2, [(ModelTier.primary, buildRecommendationPrompt userProfile),
              (ModelTier.fallback, buildRecommendationPrompt userProfile)]) := by
          simp [getBookRecommendations, hcond, hp, hf, hparse2]
        refine ⟨⟨recs2, by rw [hout]⟩, Or.inr (by rw [hout]),
          fun e2 he => by rw [hout], fun t3 ht3 hp3 => by rw [hout], ?_⟩
        intro _ hfb
        rcases hfb with ⟨e2, he⟩ | ⟨t3, ht3, hp3⟩
        · exact Except.noConfusion he
        · injection ht3 with h3
          subst h3
          rw [hparse2] at hp3
          exact Option.noConfusion hp3
      | none =>
        have hout : getBookRecommendations env userProfile =
            (.ok [], [(ModelTier.primary, buildRecommendationPrompt userProfile),
              (ModelTier.fallback, buildRecommendationPrompt userProfile)]) := by
          simp [getBookRecommendations, hcond, hp, hf, hparse2]
        exact ⟨⟨[], by rw [hout]⟩, Or.inr (by rw [hout]),
          fun e2 he => by rw [hout], fun t3 ht3 hp3 => by rw [hout],
          fun _ _ => by rw [hout]⟩
    | error e2 =>
      have hout : getBookRecommendations env userProfile =
          (.ok [], [(ModelTier.primary, buildRecommendationPrompt userProfile),
            (ModelTier.fallback, buildRecommendationPrompt userProfile)]) := by
        simp [getBookRecommendations, hcond, hp, hf]
      exact ⟨⟨[], by rw [hout]⟩, Or.inr (by rw [hout]),
        fun e3 he => by rw [hout], fun t3 ht3 hp3 => by rw [hout],
        fun _ _ => by rw [hout]⟩

/-- Witness for C5: with both models rejecting, the call returns `ok []`
and the trace shows both tiers invoked with the identical prompt. -/
theorem C5_model_fallback_witness :
    (envBothFail.initialized = true ∨ envBothFail.apiKeyPresent = true) ∧
    (getBookRecommendations envBothFail profileFix).1 = .ok [] ∧
    (getBookRecommendations envBothFail profileFix).2 =
      [(ModelTier.primary, buildRecommendationPrompt profileFix),
       (ModelTier.fallback, buildRecommendationPrompt profileFix)] := by
  have h := C5_model_fallback envBothFail profileFix (Or.inl rfl)
  exact ⟨Or.inl rfl,
    h.2.2.2.2 (Or.inl ⟨{ message := "429 quota exceeded" }, rfl⟩)
      (Or.inl ⟨{ message := "429 quota exceeded" }, rfl⟩),
    h.2.2.1 { message := "429 quota exceeded" } rfl⟩

/-- When every title has a match, enrichment is the per-title best match,
positionally. -/
lemma enrich_allMatch (catalog : String → SearchOutcome) :
    ∀ titles : List String, (∀ t ∈ titles, searchBooks (catalog t) ≠ []) →
      enrichRecommendations catalog titles =
        titles.map (fun t => (searchBooks (catalog t)).headI) := by
  intro titles
  rw [enrichRecommendations_eq_filterMap]
  induction titles with
  | nil => intro _; rfl
  | cons t ts ih =>
    intro h
    cases hsb : searchBooks (catalog t) with
    | nil => exact absurd hsb (h t (List.mem_cons_self t ts))
    | cons b bs =>
      simp only [List.filterMap_cons, List.map_cons, hsb, List.head?_cons]
      rw [ih (fun x hx => h x (List.mem_cons_of_mem _ hx))]
      rfl

/-- The positional merge over an all-match enrichment result: element `i`
of the merge reads candidate `i` of the full candidate list. -/
lemma merge_allMatch (catalog : String → Nat → SearchOutcome) :
    ∀ (suf pre full : List Candidate), full = pre ++ suf →
      mapWithIndex (fun index book =>
        { book := book
          reason := jsOrS (full[index]?.map (·.reason))
            "Recommended based on your reading history"
          genre := jsOrS (full[index]?.map (·.genre))
            (jsOrS book.categories.head? "General") })
        pre.length (suf.map (fun c => (searchBooks (catalog c.title 1)).headI)) =
      suf.map (fun c =>
        ({ book := (searchBooks (catalog c.title 1)).headI
           reason := jsOrS (some c.reason)
             "Recommended based on your reading history"
           genre := jsOrS (some c.genre)
             (jsOrS (searchBooks (catalog c.title 1)).headI.categories.head?
               "General") } : Recommendation)) := by
  intro suf
  induction suf with
  | nil => intro pre full _; rfl
  | cons c cs ih =>
    intro pre full hfull
    have h1 : full[pre.length]? = some c := by
      subst hfull
      rw [List.getElem?_append_right (le_refl pre.length)]
      simp
    simp only [List.map_cons, mapWithIndex, h1]
    congr 1
    have h2 := ih (pre ++ [c]) full (by subst hfull; simp)
    simpa using h2

/-- Claim C9: the orchestrator re-attaches `reason` and `genre` by array
index into the compacted enrichment result.  When no title is dropped,
every final recommendation carries its originating candidate's reason and
genre (and that candidate's best-match record); once a title is dropped,
positional correspondence is lost — concretely, with candidates
`[candA, candB]` and `candA`'s title unmatched, the single surviving
record is `candB`'s book carrying `candA`'s reason and genre. -/
theorem C9_positional_merge :
    (∀ (rows : List LibraryRow) (cands : List Candidate)
        (catalog : String → Nat → SearchOutcome),
      3 ≤ rows.length → cands ≠ [] →
      (∀ c ∈ cands, c.reason ≠ "" ∧ c.genre ≠ "") →
      (∀ c ∈ cands, searchBooks (catalog c.title 1) ≠ []) →
      (getRecommendationsForUser (mkDeps (.ok rows) (.ok cands) catalog)).1.source =
        some "AI-powered" ∧
      (getRecommendationsForUser (mkDeps (.ok rows) (.ok cands) catalog)).1.recommendations =
        cands.map (fun c =>
          { book := (searchBooks (catalog c.title 1)).headI
            reason := c.reason
            genre := c.genre })) ∧
    ((getRecommendationsForUser
        (mkDeps (.ok fantasyRows) (.ok [candA, candB]) dropFirstCatalog)).1.source =
      some "AI-powered" ∧
    (getRecommendationsForUser
        (mkDeps (.ok fantasyRows) (.ok [candA, candB]) dropFirstCatalog)).1.recommendations.map
        (fun r => (r.book.title, r.reason, r.genre)) = [("Beta", "RA", "Fantasy")] ∧
    candB.reason = "RB" ∧ candB.genre = "Mystery") := by
  refine ⟨fun rows cands catalog hlen hne hfields hmatch => ?_, rfl, rfl, rfl, rfl⟩
  have hnot : ¬ rows.length < 3 := by omega
  have hpos : 0 < cands.length := List.length_pos.mpr hne
  have hmatch2 : ∀ t ∈ cands.map (·.title), searchBooks (catalog t 1) ≠ [] := by
    intro t ht
    obtain ⟨c, hc, rfl⟩ := List.mem_map.mp ht
    exact hmatch c hc
  have henrich := enrich_allMatch (fun t => catalog t 1) (cands.map (·.title)) hmatch2
  constructor
  · simp [getRecommendationsForUser, mkDeps, hnot, hpos]
  · have h1 : (getRecommendationsForUser (mkDeps (.ok rows) (.ok cands) catalog)).1.recommendations =
        mapWithIndex (fun index book =>
          { book := book
            reason := jsOrS (cands[index]?.map (·.reason))
              "Recommended based on your reading history"
            genre := jsOrS (cands[index]?.map (·.genre))
              (jsOrS book.categories.head? "General") }) 0
          (enrichRecommendations (fun t => catalog t 1) (cands.map (·.title))) := by
      simp [getRecommendationsForUser, mkDeps, hnot, hpos]
    rw [h1, henrich]
    simp only [List.map_map, Function.comp_def]
    have h2 := merge_allMatch catalog cands [] cands rfl
    simp only [List.length_nil] at h2
    rw [h2]
    apply List.map_congr_left
    intro c hc
    simp [jsOrS, (hfields c hc).1, (hfields c hc).2]

/-- Witness for C9: the no-drop correspondence applied to concrete
candidates whose titles both match. -/
theorem C9_positional_merge_witness :
    3 ≤ fantasyRows.length ∧
    ([candA, candB] : List Candidate) ≠ [] ∧
    (∀ c ∈ ([candA, candB] : List Candidate), c.reason ≠ "" ∧ c.genre ≠ "") ∧
    (∀ c ∈ ([candA, candB] : List Candidate),
      searchBooks (bothMatchCatalog c.title 1) ≠ []) ∧
    (getRecommendationsForUser
        (mkDeps (.ok fantasyRows) (.ok [candA, candB]) bothMatchCatalog)).1.recommendations =
      [candA, candB].map (fun c =>
        ({ book := (searchBooks (bothMatchCatalog c.title 1)).headI
           reason := c.reason
           genre := c.genre } : Recommendation)) :=
  ⟨by decide, by decide, by decide, by decide,
   (C9_positional_merge.1 fantasyRows [candA, candB] bothMatchCatalog
     (by decide) (by decide) (by decide) (by decide)).2⟩

/-- `dropNl` never lengthens its input. -/
lemma dropNl_length (cs : List Char) : (dropNl cs).length ≤ cs.length := by
  cases cs with
  | nil => simp [dropNl]
  | cons c rest =>
    by_cases h : c = '\n' <;> simp [dropNl, h, Nat.le_succ]

/-- `removeTagOpt` does not depend on the fuel, as long as the fuel covers
the input length. -/
lemma removeTagOpt_fuel (pat : List Char) (hpat : pat ≠ []) :
    ∀ (f g : Nat) (cs : List Char), cs.length ≤ f → cs.length ≤ g →
      removeTagOpt pat f cs = removeTagOpt pat g cs := by
  intro f
  induction f with
  | zero =>
    intro g cs hf _
    have hcs : cs = [] := List.length_eq_zero.mp (Nat.le_zero.mp hf)
    subst hcs
    cases g <;> rfl
  | succ f ih =>
    intro g cs hf hg
    cases cs with
    | nil => cases g <;> rfl
    | cons c cs2 =>
      cases g with
      | zero => simp at hg
      | succ g2 =>
        have hlen : cs2.length ≤ f := by
          simpa [Nat.succ_le_succ_iff] using hf
        have hlen2 : cs2.length ≤ g2 := by
          simpa [Nat.succ_le_succ_iff] using hg
        by_cases hpre : pat.isPrefixOf (c :: cs2)
        · have hpl : 1 ≤ pat.length := by
            cases pat with
            | nil => exact absurd rfl hpat
            | cons _ _ => simp
          have hdl : (dropNl ((c :: cs2).drop pat.length)).length ≤ cs2.length := by
            calc (dropNl ((c :: cs2).drop pat.length)).length
                ≤ ((c :: cs2).drop pat.length).length := dropNl_length _
              _ = (c :: cs2).length - pat.length := by rw [List.length_drop]
              _ ≤ cs2.length := by simp; omega
          simp only [removeTagOpt, hpre, if_pos]
          exact ih g2 _ (le_trans hdl hlen) (le_trans hdl hlen2)
        · simp only [removeTagOpt, hpre, Bool.false_eq_true, if_false]
          rw [ih g2 cs2 hlen hlen2]

/-- Scanning a backtick-free prefix leaves it untouched. -/
lemma removeTagOpt_append (pat : List Char) (hc : pat.head? = some '`') :
    ∀ (p : List Char), (∀ c ∈ p, c ≠ '`') →
      ∀ (f : Nat) (a : List Char), (p ++ a).length ≤ f →
        removeTagOpt pat f (p ++ a) = p ++ removeTagOpt pat (a.length + 1) a := by
  have hpat : pat ≠ [] := by
    cases pat with
    | nil => simp at hc
    | cons _ _ => simp
  intro p
  induction p with
  | nil =>
    intro _ f a hf
    simp only [List.nil_append] at hf ⊢
    exact removeTagOpt_fuel pat hpat f (a.length + 1) a hf (by omega)
  | cons c p2 ih =>
    intro hp f a hf
    cases f with
    | zero => simp at hf
    | succ f2 =>
      have hpre : ¬ pat.isPrefixOf (c :: (p2 ++ a)) := by
        cases pat with
        | nil => simp at hc
        | cons pc pr =>
          have hpc : pc = '`' := by simpa using hc
          subst hpc
          have hcne : c ≠ '`' := hp c (List.mem_cons_self c p2)
          intro habs
          simp only [List.isPrefixOf, Bool.and_eq_true, beq_iff_eq] at habs
          exact hcne habs.1.symm
      have hf2 : (p2 ++ a).length ≤ f2 := by
        simpa [Nat.succ_le_succ_iff] using hf
      show removeTagOpt pat (f2 + 1) (c :: (p2 ++ a)) = _
      simp only [removeTagOpt, hpre, if_false]
      rw [ih (fun x hx => hp x (List.mem_cons_of_mem _ hx)) f2 a hf2]
      rfl

/-- A backtick-free text is unchanged by the fence removal. -/
lemma removeTagOpt_id (pat : List Char) (hc : pat.head? = some '`')
    (a : List Char) (ha : ∀ c ∈ a, c ≠ '`') :
    removeTagOpt pat (a.length + 1) a = a := by
  have h := removeTagOpt_append pat hc a ha (a.length + 1) []
    (by simp)
  simpa [removeTagOpt] using h

/-- Trimming a list that ends in a non-whitespace character only strips
from the left. -/
lemma jsTrim_concat (x : List Char) (e : Char) (he : jsWsChar e = false) :
    jsTrim (x ++ [e]) = x.dropWhile jsWsChar ++ [e] := by
  unfold jsTrim
  rw [List.dropWhile_append]
  by_cases hx : (x.dropWhile jsWsChar).isEmpty
  · have hx2 : x.dropWhile jsWsChar = [] := by simpa [List.isEmpty_iff] using hx
    rw [if_pos hx]
    simp [hx2, List.dropWhile, he]
  · rw [if_neg hx, List.reverse_append]
    simp [List.dropWhile, he]

/-- Members of `dropWhile` are members of the list. -/
lemma mem_of_mem_dropWhile {c : Char} {p : Char → Bool} {l : List Char}
    (h : c ∈ l.dropWhile p) : c ∈ l := by
  rw [← List.takeWhile_append_dropWhile p l]
  exact List.mem_append_right _ h

/-- The cleanup steps 1 and 2 on prose followed by a bracketed span, when
neither part contains a backtick: only leading whitespace is removed. -/
lemma stripFences_prose (p mid : List Char)
    (hp : ∀ c ∈ p, c ≠ '`') (hm : ∀ c ∈ mid, c ≠ '`') :
    stripFences (p ++ '[' :: (mid ++ [']'])) =
      p.dropWhile jsWsChar ++ '[' :: (mid ++ [']']) := by
  have hassoc : p ++ '[' :: (mid ++ [']']) = (p ++ '[' :: mid) ++ [']'] := by
    simp
  have hdrop : (p ++ '[' :: mid).dropWhile jsWsChar =
      p.dropWhile jsWsChar ++ '[' :: mid := by
    rw [List.dropWhile_append]
    by_cases hx : (p.dropWhile jsWsChar).isEmpty
    · have hx2 : p.dropWhile jsWsChar = [] := by simpa [List.isEmpty_iff] using hx
      rw [if_pos hx, hx2]
      have hws : jsWsChar '[' = false := by decide
      simp [List.dropWhile, hws]
    · rw [if_neg hx]
  have ht : jsTrim (p ++ '[' :: (mid ++ [']'])) =
      p.dropWhile jsWsChar ++ '[' :: (mid ++ [']']) := by
    rw [hassoc, jsTrim_concat _ _ (by decide), hdrop]
    simp
  have hmem : ∀ c ∈ p.dropWhile jsWsChar ++ '[' :: (mid ++ [']']), c ≠ '`' := by
    intro c hc
    rcases List.mem_append.mp hc with h1 | h2
    · exact hp c (mem_of_mem_dropWhile h1)
    · rcases List.mem_cons.mp h2 with h3 | h4
      · subst h3; decide
      · rcases List.mem_append.mp h4 with h5 | h6
        · exact hm c h5
        · have : c = ']' := by simpa using h6
          subst this; decide
  unfold stripFences
  simp only [ht]
  rw [removeTagOpt_id fenceJsonPat (by decide) _ hmem]
  rw [removeTagOpt_id fencePat (by decide) _ hmem]
  rw [show p.dropWhile jsWsChar ++ '[' :: (mid ++ [']']) =
      (p.dropWhile jsWsChar ++ '[' :: mid) ++ [']'] by simp]
  rw [jsTrim_concat _ _ (by decide)]
  rw [List.dropWhile_append]
  by_cases hx : ((p.dropWhile jsWsChar).dropWhile jsWsChar).isEmpty
  · have hid := List.dropWhile_idempotent jsWsChar p
    have hx2 : p.dropWhile jsWsChar = [] := by
      have h3 := List.isEmpty_iff.mp hx
      rw [hid] at h3
      exact h3
    rw [if_pos hx, hx2]
    have hws : jsWsChar '[' = false := by decide
    simp [List.dropWhile, hws]
  · rw [if_neg hx, List.dropWhile_idempotent]

/-- The first `[` of prose-plus-span sits right after the prose. -/
lemma findIdx_bracket :
    ∀ (p2 : List Char) (i : Nat) (rest : List Char), (∀ c ∈ p2, c ≠ '[') →
      List.findIdx? (fun c => c = '[') (p2 ++ '[' :: rest) i = some (i + p2.length) := by
  intro p2
  induction p2 with
  | nil =>
    intro i rest _
    rw [List.nil_append, List.findIdx?_cons]
    simp
  | cons c p3 ih =>
    intro i rest hp
    rw [List.cons_append, List.findIdx?_cons]
    have hc : (fun x => decide (x = '[')) c = false := by
      simp [hp c (List.mem_cons_self c p3)]
    simp only [hc, Bool.false_eq_true, if_false]
    rw [ih (i + 1) rest (fun x hx => hp x (List.mem_cons_of_mem _ hx))]
    congr 1
    simp [List.length_cons]
    omega

/-- The last `]` of a list ending in `]` is its final position. -/
lemma lastIdxOf_concat (x : List Char) :
    lastIdxOf ']' (x ++ [']']) = some x.length := by
  unfold lastIdxOf
  rw [List.reverse_append]
  simp only [List.reverse_singleton, List.singleton_append, List.findIdx?_cons]
  simp

/-- Extraction on prose followed by a bracketed span keeps exactly the
span. -/
lemma extractSpan_concat (p2 mid : List Char) (hp : ∀ c ∈ p2, c ≠ '[') :
    extractSpan (p2 ++ '[' :: (mid ++ [']'])) = '[' :: (mid ++ [']']) := by
  unfold extractSpan
  have hfind : List.findIdx? (fun c => c = '[') (p2 ++ '[' :: (mid ++ [']'])) 0 =
      some p2.length := by
    have h := findIdx_bracket p2 0 (mid ++ [']']) hp
    simpa using h
  have hlast : lastIdxOf ']' (p2 ++ '[' :: (mid ++ [']'])) =
      some (p2.length + mid.length + 1) := by
    have hsh : p2 ++ '[' :: (mid ++ [']']) = (p2 ++ '[' :: mid) ++ [']'] := by simp
    rw [hsh, lastIdxOf_concat]
    simp [Nat.add_comm, Nat.add_assoc, Nat.add_left_comm]
  rw [hfind, hlast]
  dsimp only
  have hij : p2.length < p2.length + mid.length + 1 := by omega
  rw [if_pos hij]
  have hlen : p2.length + mid.length + 1 + 1 =
      (p2 ++ '[' :: (mid ++ [']'])).length := by
    simp
    omega
  rw [hlen, List.take_length]
  exact List.drop_left p2 _

/-- The whole parse coincides on prose-wrapped and bare arrays, when the
prose holds no backtick and no opening bracket and the array text holds no
backtick: the claimed leading-prose robustness. -/
lemma parseRecommendationsL_prose (p mid : List Char)
    (hp : ∀ c ∈ p, c ≠ '`' ∧ c ≠ '[') (hm : ∀ c ∈ mid, c ≠ '`') :
    parseRecommendationsL (p ++ '[' :: (mid ++ [']'])) =
      parseRecommendationsL ('[' :: (mid ++ [']'])) := by
  unfold parseRecommendationsL
  have h1 := stripFences_prose p mid (fun c hc => (hp c hc).1) hm
  have h2 : stripFences ('[' :: (mid ++ [']'])) = '[' :: (mid ++ [']']) := by
    have h3 := stripFences_prose [] mid (by simp) hm
    simpa using h3
  rw [h1, h2]
  rw [extractSpan_concat (p.dropWhile jsWsChar) mid
    (fun c hc => (hp c (mem_of_mem_dropWhile hc)).2)]
  have hex2 : extractSpan ('[' :: (mid ++ [']'])) = '[' :: (mid ++ [']']) := by
    have h4 := extractSpan_concat [] mid (by simp)
    simpa using h4
  rw [hex2]

/-- A successful validity filter is exactly `filter goodElem`. -/
lemma filterValid_sub :
    ∀ (es valid : List Json), filterValidElems es = some valid →
      valid = es.filter goodElem := by
  intro es
  induction es with
  | nil =>
    intro valid h
    simp only [filterValidElems] at h
    injection h with h2
    simp [← h2]
  | cons e es2 ih =>
    intro valid h
    cases e <;> simp only [filterValidElems] at h <;>
      first
      | exact absurd h (by simp)
      | (cases hrec : filterValidElems es2 with
         | none => rw [hrec] at h; exact absurd h (by simp)
         | some rest =>
           rw [hrec] at h
           injection h with h2
           rw [← h2, ih rest hrec, List.filter_cons])
  -- the null case yields `none = some valid`, closed by `absurd`

/-- Without null elements, the validity filter succeeds with
`filter goodElem`. -/
lemma filterValid_of_no_null :
    ∀ (es : List Json), (∀ e ∈ es, e ≠ Json.null) →
      filterValidElems es = some (es.filter goodElem) := by
  intro es
  induction es with
  | nil => intro _; rfl
  | cons e es2 ih =>
    intro h
    have ht := ih (fun x hx => h x (List.mem_cons_of_mem _ hx))
    have he := h e (List.mem_cons_self e es2)
    cases e
    case null => exact absurd rfl he
    all_goals simp only [filterValidElems, ht, List.filter_cons]

/-- A surviving element is normalized with truthy `title`, `author`,
`reason`, and a truthy (possibly defaulted) `genre`. -/
lemma normElem_truthy (e : Json) (h : goodElem e = true) :
    jsTruthy (normElem e).title = true ∧ jsTruthy (normElem e).author = true ∧
    jsTruthy (normElem e).reason = true ∧ jsTruthy (normElem e).genre = true := by
  unfold goodElem at h
  simp only [Bool.and_eq_true] at h
  obtain ⟨⟨h1, h2⟩, h3⟩ := h
  refine ⟨?_, ?_, ?_, ?_⟩
  · unfold propTruthy at h1
    unfold normElem
    cases hg : e.getProp "title" with
    | none => rw [hg] at h1; exact absurd h1 (by simp)
    | some v => rw [hg] at h1; simpa [hg] using h1
  · unfold propTruthy at h2
    unfold normElem
    cases hg : e.getProp "author" with
    | none => rw [hg] at h2; exact absurd h2 (by simp)
    | some v => rw [hg] at h2; simpa [hg] using h2
  · unfold propTruthy at h3
    unfold normElem
    cases hg : e.getProp "reason" with
    | none => rw [hg] at h3; exact absurd h3 (by simp)
    | some v => rw [hg] at h3; simpa [hg] using h3
  · unfold normElem
    cases hg : e.getProp "genre" with
    | none => simp [hg, jsTruthy]
    | some g =>
      by_cases hgt : jsTruthy g = true
      · simp only [hg]
        rw [if_pos hgt]
        exact hgt
      · simp only [hg]
        rw [if_neg hgt]
        decide

/-- Claim C2, counterexample: the source extracts the greedy span from
the first `[` to the last `]`, not the first balanced `[...]` substring.
On prose whose trailing text contains a `]`, the greedy span is not valid
JSON and the parse fails, while the first balanced substring is exactly
the bare array, which parses to one candidate. -/
theorem C2_greedy_span_cx :
    parseRecommendationsResponse proseWrapped = none ∧
    extractFirstBalancedArray (stripFences proseWrapped.data) =
      some bareArray.data ∧
    parseRecommendationsResponse bareArray =
      some [{ title := Json.str "T", author := Json.str "A",
              genre := Json.str "General", reason := Json.str "R" }] :=
  ⟨rfl, rfl, rfl⟩

/-- Claim C2 (amended): the parser strips Markdown code fences, replaces
the text with the greedy span from the first `[` to the last `]` when one
exists (this coincides with the first balanced array when no `]` follows
it), fails on a non-array top level, drops non-null elements lacking
`title`, `author` or `reason` (a null element fails the whole parse),
defaults `genre` to `"General"`, and fails when no element survives; input
with leading prose (no backtick, no `[`) before the array parses to the
same candidates as the bare array. -/
theorem C2_parser_behavior :
    (∀ p mid : List Char, (∀ c ∈ p, c ≠ '`' ∧ c ≠ '[') →
      (∀ c ∈ mid, c ≠ '`') →
      parseRecommendationsL (p ++ '[' :: (mid ++ [']'])) =
        parseRecommendationsL ('[' :: (mid ++ [']']))) ∧
    parseRecommendationsResponse fencedExample =
      some [{ title := Json.str "T", author := Json.str "A",
              genre := Json.str "G", reason := Json.str "R" }] ∧
    (∀ (s : String) (l : List ParsedRec),
      parseRecommendationsResponse s = some l →
      l ≠ [] ∧ ∀ r ∈ l, jsTruthy r.title = true ∧ jsTruthy r.author = true ∧
        jsTruthy r.reason = true ∧ jsTruthy r.genre = true) ∧
    (∀ (s : String) (j : Json),
      jsonParseL (extractSpan (stripFences s.data)) = some j →
      (∀ es, j ≠ Json.arr es) → parseRecommendationsResponse s = none) ∧
    (∀ (s : String) (es : List Json),
      jsonParseL (extractSpan (stripFences s.data)) = some (Json.arr es) →
      (∀ e ∈ es, e ≠ Json.null) →
      parseRecommendationsResponse s =
        (if (es.filter goodElem).length = 0 then none
         else some ((es.filter goodElem).map normElem))) := by
  refine ⟨parseRecommendationsL_prose, rfl, ?_, ?_, ?_⟩
  · intro s l h
    unfold parseRecommendationsResponse parseRecommendationsL at h
    cases hj : jsonParseL (extractSpan (stripFences s.data)) with
    | none =>
      simp only [hj] at h
      exact Option.noConfusion h
    | some j =>
      simp only [hj] at h
      cases j
      case arr es =>
        cases hv : filterValidElems es with
        | none =>
          simp only [hv] at h
          exact Option.noConfusion h
        | some valid =>
          simp only [hv] at h
          by_cases h0 : valid.length = 0
          · rw [if_pos h0] at h
            exact absurd h (by simp)
          · rw [if_neg h0] at h
            injection h with h2
            subst h2
            constructor
            · intro habs
              exact h0 (by rw [List.map_eq_nil_iff.mp habs]; rfl)
            · intro r hr
              obtain ⟨e, he, rfl⟩ := List.mem_map.mp hr
              have hgood : goodElem e = true := by
                have hsub := filterValid_sub es valid hv
                rw [hsub] at he
                exact List.of_mem_filter he
              exact normElem_truthy e hgood
      all_goals simp at h
  · intro s j hj hne
    cases j
    case arr es => exact absurd rfl (hne es)
    all_goals
      unfold parseRecommendationsResponse parseRecommendationsL
    all_goals simp only [hj]
  · intro s es hj hnn
    unfold parseRecommendationsResponse parseRecommendationsL
    simp only [hj, filterValid_of_no_null es hnn]

/-- Witness for C2: the prose-robustness conjunct applied to concrete
prose and array text, and the survivor conjunct applied to the bare
array. -/
theorem C2_parser_behavior_witness :
    (∀ c ∈ ("Sure! " : String).data, c ≠ '`' ∧ c ≠ '[') ∧
    (∀ c ∈ bareInner.data, c ≠ '`') ∧
    parseRecommendationsL (("Sure! " : String).data ++ '[' :: (bareInner.data ++ [']'])) =
      parseRecommendationsL ('[' :: (bareInner.data ++ [']'])) ∧
    parseRecommendationsResponse bareArray =
      some [{ title := Json.str "T", author := Json.str "A",
              genre := Json.str "General", reason := Json.str "R" }] ∧
    (([{ title := Json.str "T", author := Json.str "A",
         genre := Json.str "General", reason := Json.str "R" }] : List ParsedRec) ≠ [] ∧
      ∀ r ∈ ([{ title := Json.str "T", author := Json.str "A",
                genre := Json.str "General", reason := Json.str "R" }] : List ParsedRec),
        jsTruthy r.title = true ∧ jsTruthy r.author = true ∧
        jsTruthy r.reason = true ∧ jsTruthy r.genre = true) :=
  ⟨by decide, by decide,
   C2_parser_behavior.1 _ _ (by decide) (by decide), rfl,
   C2_parser_behavior.2.2.1 bareArray _ rfl⟩

/-- The rating accumulation is the sum of the mapped ratings. -/
lemma foldl_rating (rows : List LibraryRow) (init : ℚ) :
    rows.foldl (fun sum book => sum + book.average_rating.getD 0) init =
      init + (rows.map (fun b => b.average_rating.getD 0)).sum := by
  induction rows generalizing init with
  | nil => simp
  | cons b rows ih =>
    simp only [List.foldl_cons, List.map_cons, List.sum_cons, ih]
    ring

/-- The page-count accumulation is the sum of the mapped page counts. -/
lemma foldl_pages (rows : List LibraryRow) (init : ℕ) :
    rows.foldl (fun sum book => sum + book.page_count.getD 0) init =
      init + (rows.map (fun b => b.page_count.getD 0)).sum := by
  induction rows generalizing init with
  | nil => simp
  | cons b rows ih =>
    simp only [List.foldl_cons, List.map_cons, List.sum_cons, ih]
    omega

/-- The nested per-row/per-entry counting fold equals the fold over the
flattened key stream. -/
lemma foldl_bump_flatMap (sel : LibraryRow → Option (List String)) :
    ∀ (rows : List LibraryRow) (m : List (String × Nat)),
      rows.foldl (fun counts book =>
        match sel book with
        | some ks => ks.foldl bumpCount counts
        | none => counts) m =
      (rows.flatMap (fun b => (sel b).getD [])).foldl bumpCount m := by
  intro rows
  induction rows with
  | nil => intro m; rfl
  | cons b rows ih =>
    intro m
    rw [List.flatMap_cons, List.foldl_append, List.foldl_cons, ih]
    cases sel b <;> rfl

instance : IsTotal (String × Nat) countGE :=
  ⟨fun a b => le_total b.2 a.2⟩

instance : IsTrans (String × Nat) countGE :=
  ⟨fun _ _ _ hab hbc => le_trans hbc hab⟩

/-- Inserting into a list moves the new element past exactly the entries
of strictly larger count, so each fixed-count class gains the new element
in front when counts agree. -/
lemma filter_orderedInsert (x : String × Nat) (c : Nat) :
    ∀ L : List (String × Nat),
      (List.orderedInsert countGE x L).filter (fun e => e.2 = c) =
        if x.2 = c then x :: L.filter (fun e => e.2 = c)
        else L.filter (fun e => e.2 = c) := by
  intro L
  induction L with
  | nil =>
    simp only [List.orderedInsert, List.filter]
    by_cases hx : x.2 = c <;> simp [hx]
  | cons b l ih =>
    by_cases hr : countGE x b
    · rw [List.orderedInsert_of_le _ _ hr]
      by_cases hx : x.2 = c <;> simp [List.filter_cons, hx]
    · have hr2 : ¬ (b.2 ≤ x.2) := hr
      have hlt : x.2 < b.2 := by omega
      simp only [List.orderedInsert, if_neg hr]
      rw [List.filter_cons, List.filter_cons, ih]
      by_cases hx : x.2 = c
      · have hb : ¬ (b.2 = c) := by omega
        simp [hx, hb]
      · simp [hx]

/-- The stable sort preserves each fixed-count class in input order. -/
lemma filter_sortCountsDesc (c : Nat) :
    ∀ L : List (String × Nat),
      (sortCountsDesc L).filter (fun e => e.2 = c) =
        L.filter (fun e => e.2 = c) := by
  intro L
  induction L with
  | nil => rfl
  | cons x l ih =>
    unfold sortCountsDesc at ih ⊢
    rw [List.insertionSort, filter_orderedInsert x c, ih, List.filter_cons]
    by_cases hx : x.2 = c <;> simp [hx]

/-- The worker is fuel-irrelevant once the fuel covers the list. -/
lemma firstSeenF_congr : ∀ (n m : Nat) (l : List String), l.length ≤ n →
    l.length ≤ m → firstSeenF n l = firstSeenF m l := by
  intro n
  induction n with
  | zero =>
    intro m l hn _
    have hnil : l = [] := List.length_eq_zero.mp (Nat.le_zero.mp hn)
    subst hnil
    cases m <;> rfl
  | succ n ih =>
    intro m l hn hm
    cases l with
    | nil => cases m <;> rfl
    | cons x xs =>
      cases m with
      | zero => exact absurd hm (by simp)
      | succ m =>
        simp only [firstSeenF]
        congr 1
        have hlen := List.length_filter_le (fun y => decide (y ≠ x)) xs
        simp only [List.length_cons, Nat.succ_le_succ_iff] at hn hm
        exact ih m _ (le_trans hlen hn) (le_trans hlen hm)

/-- Unfolding equation of `firstSeen`. -/
lemma firstSeen_cons (x : String) (xs : List String) :
    firstSeen (x :: xs) = x :: firstSeen (xs.filter (fun y => y ≠ x)) := by
  unfold firstSeen
  simp only [List.length_cons, firstSeenF]
  congr 1
  exact firstSeenF_congr xs.length _ _ (List.length_filter_le _ _) (le_refl _)

/-- Members of `firstSeen` come from the list. -/
lemma mem_firstSeen : ∀ (n : Nat) (l : List String), l.length ≤ n →
    ∀ x ∈ firstSeen l, x ∈ l := by
  intro n
  induction n with
  | zero =>
    intro l hl x hx
    have hnil : l = [] := List.length_eq_zero.mp (Nat.le_zero.mp hl)
    subst hnil
    exact absurd hx (by simp [firstSeen, firstSeenF])
  | succ n ih =>
    intro l hl x hx
    cases l with
    | nil =>
      exact absurd hx (by simp [firstSeen, firstSeenF])
    | cons y ys =>
      rw [firstSeen_cons] at hx
      rcases List.mem_cons.mp hx with h1 | h2
      · subst h1
        exact List.mem_cons_self x ys
      · have hlen : (ys.filter (fun y2 => y2 ≠ y)).length ≤ n := by
          have h3 := List.length_filter_le (fun y2 => decide (y2 ≠ y)) ys
          simp only [List.length_cons, Nat.succ_le_succ_iff] at hl
          omega
        have h4 := ih _ hlen x h2
        exact List.mem_cons_of_mem _ (List.mem_of_mem_filter h4)

/-- The key of an updated entry is unchanged. -/
lemma fst_bump_upd (k : String) (p : String × Nat) :
    (if p.1 = k then (p.1, p.2 + 1) else p).1 = p.1 := by
  split <;> rfl

/-- Bumping a key updates the key set by that key only. -/
lemma hasKey_bumpCount (m : List (String × Nat)) (k x : String) :
    hasKey (bumpCount m k) x = (hasKey m x || decide (x = k)) := by
  unfold bumpCount
  by_cases hk : hasKey m k = true
  · unfold hasKey at hk
    rw [if_pos hk]
    have hmap : hasKey (m.map (fun p => if p.1 = k then (p.1, p.2 + 1) else p)) x =
        hasKey m x := by
      simp only [hasKey, List.any_map, Function.comp_def]
      congr 1
      funext p
      rw [fst_bump_upd]
    rw [hmap]
    by_cases hx : x = k
    · subst hx
      have hk2 : hasKey m x = true := hk
      rw [hk2]
      simp
    · simp [hx]
  · unfold hasKey at hk
    rw [if_neg hk]
    simp only [hasKey, List.any_append, List.any_cons, List.any_nil, Bool.or_false]
    congr 1
    exact decide_eq_decide.mpr eq_comm

/-- Closed form of the frequency-table fold: existing entries gain their
key's count in the stream, and the new keys follow in first-seen order
with their counts. -/
lemma foldl_bumpCount_closed :
    ∀ (ks : List String) (m : List (String × Nat)),
      ks.foldl bumpCount m =
        m.map (fun p => (p.1, p.2 + ks.count p.1)) ++
          (firstSeen (ks.filter (fun k => ! hasKey m k))).map
            (fun k => (k, ks.count k)) := by
  intro ks
  induction ks with
  | nil =>
    intro m
    simp only [List.foldl_nil, List.filter_nil, List.count_nil, Nat.add_zero]
    rw [show firstSeen [] = [] from rfl]
    simp
  | cons k ks ih =>
    intro m
    rw [List.foldl_cons, ih (bumpCount m k)]
    have hfeq : ks.filter (fun x => ! hasKey (bumpCount m k) x) =
        ks.filter (fun x => !(hasKey m x || decide (x = k))) :=
      List.filter_congr (fun x _ => by rw [hasKey_bumpCount])
    rw [hfeq]
    by_cases hk : hasKey m k = true
    · have hb : bumpCount m k =
          m.map (fun p => if p.1 = k then (p.1, p.2 + 1) else p) := by
        unfold bumpCount
        rw [if_pos (show (m.any fun p => decide (p.1 = k)) = true from hk)]
      rw [hb]
      have hpiece1 :
          (m.map (fun p => if p.1 = k then (p.1, p.2 + 1) else p)).map
            (fun p => (p.1, p.2 + ks.count p.1)) =
          m.map (fun p => (p.1, p.2 + (k :: ks).count p.1)) := by
        rw [List.map_map]
        apply List.map_congr_left
        intro p _
        simp only [Function.comp_def]
        by_cases hpk : p.1 = k
        · rw [if_pos hpk, List.count_cons, if_pos (beq_iff_eq.mpr hpk.symm)]
          simp only [Prod.mk.injEq]
          exact ⟨by trivial, by omega⟩
        · rw [if_neg hpk, List.count_cons,
            if_neg (by simpa using fun h => hpk h.symm)]
          simp
      have hfeq2 : ks.filter (fun x => !(hasKey m x || decide (x = k))) =
          ks.filter (fun x => ! hasKey m x) := by
        apply List.filter_congr
        intro x _
        by_cases hx : x = k
        · subst hx
          simp [hk]
        · simp [hx]
      have hrf : (k :: ks).filter (fun x => ! hasKey m x) =
          ks.filter (fun x => ! hasKey m x) := by
        rw [List.filter_cons]
        simp [hk]
      rw [hpiece1, hfeq2, hrf]
      congr 1
      apply List.map_congr_left
      intro x hx
      have hxin : x ∈ ks.filter (fun x => ! hasKey m x) :=
        mem_firstSeen _ _ (le_refl _) x hx
      have hxk : hasKey m x = false := by
        have h5 := (List.mem_filter.mp hxin).2
        simpa using h5
      have hneq : x ≠ k := by
        intro h6
        rw [h6, hk] at hxk
        cases hxk
      rw [List.count_cons, if_neg (by simpa using fun h => hneq h.symm)]
      simp
    · have hkf : hasKey m k = false := by simpa using hk
      have hb : bumpCount m k = m ++ [(k, 1)] := by
        unfold bumpCount
        rw [if_neg (show ¬ (m.any fun p => decide (p.1 = k)) = true from hk)]
      rw [hb, List.map_append]
      have hpm : m.map (fun p => (p.1, p.2 + ks.count p.1)) =
          m.map (fun p => (p.1, p.2 + (k :: ks).count p.1)) := by
        apply List.map_congr_left
        intro p hp
        have hpk : p.1 ≠ k := by
          intro h6
          have h7 : hasKey m k = true := by
            unfold hasKey
            rw [List.any_eq_true]
            exact ⟨p, hp, by simpa using h6⟩
          rw [h7] at hkf
          cases hkf
        rw [List.count_cons, if_neg (by simpa using fun h => hpk h.symm)]
        simp
      have hrf : (k :: ks).filter (fun x => ! hasKey m x) =
          k :: ks.filter (fun x => ! hasKey m x) := by
        rw [List.filter_cons]
        simp [hkf]
      rw [hrf, firstSeen_cons]
      have hcommon : (ks.filter (fun x => ! hasKey m x)).filter (fun y => y ≠ k) =
          ks.filter (fun x => !(hasKey m x || decide (x = k))) := by
        rw [List.filter_filter]
        apply List.filter_congr
        intro x _
        by_cases hx : x = k <;> simp [hx]
      rw [hcommon]
      rw [hpm, List.map_cons, List.append_assoc]
      congr 1
      simp only [List.map_cons, List.map_nil, List.cons_append, List.nil_append]
      congr 1
      · show ((k : String), 1 + List.count k ks) = (k, List.count k (k :: ks))
        rw [List.count_cons_self]
        simp only [Prod.mk.injEq]
        exact ⟨by trivial, by omega⟩
      · apply List.map_congr_left
        intro x hx
        have hxin : x ∈ ks.filter (fun x => !(hasKey m x || decide (x = k))) :=
          mem_firstSeen _ _ (le_refl _) x hx
        have hxk : x ≠ k := by
          have h5 := (List.mem_filter.mp hxin).2
          intro h6
          subst h6
          simp at h5
        rw [List.count_cons, if_neg (by simpa using fun h => hxk h.symm)]
        simp

/-- Folding the counter over a key stream starting from the empty table
yields exactly the first-seen frequency table. -/
lemma counts_eq_freqTableSpec (ks : List String) :
    ks.foldl bumpCount [] = freqTableSpec ks := by
  rw [foldl_bumpCount_closed]
  rw [show ks.filter (fun k => ! hasKey [] k) = ks from
    List.filter_eq_self.mpr (fun a _ => rfl)]
  rfl

/-- The genre table built by the source equals the spec frequency table
of the flattened category stream. -/
lemma genreCountsOf_eq (rows : List LibraryRow) :
    genreCountsOf rows = freqTableSpec (flatCategories rows) :=
  (foldl_bump_flatMap (fun b => b.categories) rows []).trans
    (counts_eq_freqTableSpec (flatCategories rows))

/-- The author table built by the source equals the spec frequency table
of the flattened author stream. -/
lemma authorCountsOf_eq (rows : List LibraryRow) :
    authorCountsOf rows = freqTableSpec (flatAuthors rows) :=
  (foldl_bump_flatMap (fun b => b.authors) rows []).trans
    (counts_eq_freqTableSpec (flatAuthors rows))

/-- The source favorite-author computation equals the amended reference:
authors occurring more than once in the flattened author stream, in
first-seen order. -/
lemma favAuthors_eq (rows : List LibraryRow) :
    ((authorCountsOf rows).filter (fun e => 1 < e.2)).map (fun e => e.1) =
      favoriteAuthorsAmended rows := by
  rw [authorCountsOf_eq]
  unfold freqTableSpec favoriteAuthorsAmended
  rw [List.filter_map, List.map_map]
  simp [Function.comp_def]

/-- Claim C6 is refuted at the three-row library `cxRows`, where the
profile the source builds disagrees with the reference profile stated by
the claim.  The source counts an author once per occurrence, not per row
(row B1 lists "X" twice, so "X" becomes a favorite although it appears
on only one row), and it divides the rating and page sums by the total
row count rather than by the number of rows carrying the field (one
rated and paged row among three gives avgRating 1.7 and avgPageCount 100
where the reference demands 5 and 300).  `topGenres` agrees on this
input. -/
theorem C6_profile_ref_cx :
    3 ≤ cxRows.length ∧
    buildUserProfile cxRows ≠ tasteProfileSpecRef cxRows ∧
    (buildUserProfile cxRows).favoriteAuthors = ["X"] ∧
    (tasteProfileSpecRef cxRows).favoriteAuthors = [] ∧
    (buildUserProfile cxRows).avgRating = 17 / 10 ∧
    (tasteProfileSpecRef cxRows).avgRating = 5 ∧
    (buildUserProfile cxRows).avgPageCount = 100 ∧
    (tasteProfileSpecRef cxRows).avgPageCount = 300 ∧
    (buildUserProfile cxRows).topGenres = (tasteProfileSpecRef cxRows).topGenres := by
  with_unfolding_all decide

/-- Claim C6, amended: for every library of at least 3 rows, the built
TasteProfile satisfies the corrected reference.  The genre table is the
first-seen frequency table of the flattened category stream; `topGenres`
is the first 3 keys of its stable descending-by-count sort (tied counts
kept in first-seen order); `favoriteAuthors` is the deduplicated list of
authors occurring more than once across all author lists counted per
occurrence, not per row, in first-seen order; and `avgRating` and
`avgPageCount` divide the field sums by the TOTAL row count, with rows
missing the field contributing 0 to the sum. -/
theorem C6_profile_amended (rows : List LibraryRow) (h : 3 ≤ rows.length) :
    (buildUserProfile rows).totalBooks = rows.length ∧
    genreCountsOf rows = freqTableSpec (flatCategories rows) ∧
    stableSortSpec (freqTableSpec (flatCategories rows))
      (sortCountsDesc (genreCountsOf rows)) ∧
    (buildUserProfile rows).topGenres =
      ((sortCountsDesc (freqTableSpec (flatCategories rows))).take 3).map
        (fun e => e.1) ∧
    (buildUserProfile rows).topGenres.length ≤ 3 ∧
    (buildUserProfile rows).favoriteAuthors = favoriteAuthorsAmended rows ∧
    (buildUserProfile rows).avgRating =
      fixed1 ((rows.map (fun b => b.average_rating.getD 0)).sum /
        (rows.length : ℚ)) ∧
    (buildUserProfile rows).avgPageCount =
      jsRound (((rows.map (fun b => b.page_count.getD 0)).sum : ℚ) /
        (rows.length : ℚ)) := by
  refine ⟨rfl, genreCountsOf_eq rows, ⟨?_, ?_, ?_⟩, ?_, ?_, favAuthors_eq rows, ?_, ?_⟩
  · exact List.sorted_insertionSort countGE _
  · rw [genreCountsOf_eq]
    exact List.perm_insertionSort countGE _
  · intro c
    rw [filter_sortCountsDesc, genreCountsOf_eq]
  · show ((sortCountsDesc (genreCountsOf rows)).take 3).map (fun e => e.1) = _
    rw [genreCountsOf_eq]
  · show (((sortCountsDesc (genreCountsOf rows)).take 3).map (fun e => e.1)).length ≤ 3
    rw [List.length_map, List.length_take]
    exact min_le_left _ _
  · show fixed1 (rows.foldl (fun sum book => sum + book.average_rating.getD 0) (0 : ℚ) /
        (rows.length : ℚ)) = _
    rw [foldl_rating, zero_add]
  · show jsRound (((rows.foldl (fun sum book => sum + book.page_count.getD 0) (0 : ℕ) : ℕ) : ℚ) /
        (rows.length : ℚ)) = _
    rw [foldl_pages, zero_add, Nat.cast_list_sum, List.map_map]
    rfl

/-- The amended claim C6 theorem instantiated at the concrete three-row
library `cxRows`. -/
theorem C6_profile_amended_witness :
    3 ≤ cxRows.length ∧
    ((buildUserProfile cxRows).totalBooks = cxRows.length ∧
     genreCountsOf cxRows = freqTableSpec (flatCategories cxRows) ∧
     stableSortSpec (freqTableSpec (flatCategories cxRows))
       (sortCountsDesc (genreCountsOf cxRows)) ∧
     (buildUserProfile cxRows).topGenres =
       ((sortCountsDesc (freqTableSpec (flatCategories cxRows))).take 3).map
         (fun e => e.1) ∧
     (buildUserProfile cxRows).topGenres.length ≤ 3 ∧
     (buildUserProfile cxRows).favoriteAuthors = favoriteAuthorsAmended cxRows ∧
     (buildUserProfile cxRows).avgRating =
       fixed1 ((cxRows.map (fun b => b.average_rating.getD 0)).sum /
         (cxRows.length : ℚ)) ∧
     (buildUserProfile cxRows).avgPageCount =
       jsRound (((cxRows.map (fun b => b.page_count.getD 0)).sum : ℚ) /
         (cxRows.length : ℚ))) :=
  ⟨by decide, C6_profile_amended cxRows (by decide)⟩
